import Mathlib

/-!
Verification development for the optimization-object marshalling layer of the
repository (file `src/hippopt/base/opti_solver.py`, class `OptiSolver`).

The Python code is shallowly embedded as pure Lean functions:
* numpy arrays become `NpArr` (a dimension list plus flattened integer data);
* Python attribute trees (dataclass instances, lists, numpy arrays, `None`,
  plain scalars, casadi MX handles) become the inductive `Val`;
* the casadi `Opti` engine is modelled through the contract the code uses:
  fresh-handle allocation by shape, an initial-value store for variables, a
  fixed-value store for parameters, a constraint list and a minimized
  objective;
* Python exceptions become an `Err` value returned through `Except`.

Field metadata (`OptimizationObject.StorageTypeField` holding
`Variable.StorageTypeValue` or `Parameter.StorageTypeValue`) is modelled as an
`Option StorageTag` per field: `none` when the storage key is absent from the
field metadata, `some` of the recorded tag otherwise.
-/

/-- Storage tags recorded in a field's metadata. The Python code compares the
stored string against `Variable.StorageTypeValue` and
`Parameter.StorageTypeValue` by identity; `otherTag` stands for any further
string, which `_generate_opti_object` rejects as an unsupported storage type. -/
inductive StorageTag where
  | storageVariable
  | storageParameter
  | otherTag
deriving DecidableEq, Repr

/-- A numpy array: `dims` is the shape tuple (`ndim = dims.length`), `data`
the flattened entries. Only the shape steers the embedded control flow. -/
structure NpArr where
  dims : List Nat
  data : List Int
deriving DecidableEq, Repr

/-- Python exceptions raised by the embedded code paths.

* `valueError` — `raise ValueError(msg)` in `opti_solver.py`;
* `typeError` — boundary `TypeError`s (casadi rejecting `None` where an MX
  expression is expected, `dataclasses.fields` on a non-dataclass, casadi
  `value`/`set_initial` on a non-symbolic argument);
* `attributeError` — `.shape` on an object without that attribute;
* `axisError` — `np.expand_dims(v, axis=1)` on a 0-d array;
* `indexError` — `guess.shape[0]` on a 0-d array;
* `assertionError` — the `assert isinstance(input_structure, list)` in
  `_generate_objects_from_list`;
* `solutionNotAvailable` / `problemNotRegistered` — the exception classes
  imported from `hippopt.base.optimization_solver`;
* `engineFailure` — a failure raised by the underlying engine's `solve()`,
  surfaced verbatim (the code around it adds nothing);
* `noCost` — the spec taxonomy's `NoCostError`. Modelled from the spec: the
  spec ascribes to `solve()` a session-level "no cost set" failure. The
  embedded source never constructs this value; it exists so that spec-level
  statements about that error can be written down and compared with what the
  code does. -/
inductive Err where
  | valueError (msg : String)
  | typeError (msg : String)
  | attributeError
  | axisError
  | indexError
  | assertionError
  | solutionNotAvailable
  | problemNotRegistered
  | engineFailure (code : Nat)
  | noCost
deriving DecidableEq, Repr

/-- A Python value appearing in the attribute trees handled by `OptiSolver`:
`vnone` is Python `None`, `plain` any other non-array scalar, `arr` a numpy
array, `mx n r c` a casadi MX handle with id `n` and shape `(r, c)`, `obj` a
dataclass instance given by its ordered field list
(name, storage metadata, value), `vlist` a Python list. -/
inductive Val where
  | vnone
  | plain (n : Int)
  | arr (a : NpArr)
  | mx (id : Nat) (rows cols : Nat)
  | obj (fields : List (String × Option StorageTag × Val))
  | vlist (elems : List Val)

/-- A casadi MX scalar expression, as used for costs and constraints:
a symbolic handle, an integer literal, or a symbolic sum built by `+`. -/
inductive MXExpr where
  | sym (id : Nat)
  | lit (n : Int)
  | add (a b : MXExpr)
deriving DecidableEq, Repr

/-- Evaluate an MX expression at a point assigning a number to each handle. -/
def MXExpr.eval (env : Nat → Int) : MXExpr → Int
  | .sym id => env id
  | .lit n => n
  | .add a b => a.eval env + b.eval env

/-- The casadi `cs.Opti` engine state, modelled through the contract
`OptiSolver` uses: handle allocation, value stores, constraints, objective. -/
structure Opti where
  nextId : Nat
  varHandles : List (Nat × Nat × Nat)
  paramHandles : List (Nat × Nat × Nat)
  initialStore : List (Nat × NpArr)
  valueStore : List (Nat × NpArr)
  constraints : List MXExpr
  minimized : Option MXExpr

/-- `cs.Opti.variable(r, c)`: allocate a fresh decision-variable handle. -/
def Opti.newVariable (o : Opti) (r c : Nat) : Opti × Val :=
  ({ o with nextId := o.nextId + 1, varHandles := (o.nextId, r, c) :: o.varHandles },
   Val.mx o.nextId r c)

/-- `cs.Opti.parameter(r, c)`: allocate a fresh parameter handle. -/
def Opti.newParameter (o : Opti) (r c : Nat) : Opti × Val :=
  ({ o with nextId := o.nextId + 1, paramHandles := (o.nextId, r, c) :: o.paramHandles },
   Val.mx o.nextId r c)

/-- `np.expand_dims(value, axis=1)` for arrays of `ndim < 2`: a 1-D array of
length `n` becomes `(n, 1)`; on a 0-d array numpy raises an axis error. -/
def expandDims (a : NpArr) : Except Err NpArr :=
  match a.dims with
  | [n] => .ok ⟨[n, 1], a.data⟩
  | _ => .error .axisError

/-- The result handle returned by a successful engine solve (`cs.OptiSol`):
`handleValue n r c` is `np.array(sol.value(h))` for the handle `h` with id `n`
and shape `(r, c)`; `exprValue e` is `sol.value(e)` for a scalar expression. -/
structure OptiSol where
  handleValue : Nat → Nat → Nat → NpArr
  exprValue : MXExpr → Int

/-- The mutable state of an `OptiSolver` instance. Field names follow the
Python attributes `_solver`, `_cost`, `_opti_solution`, `_output_solution`,
`_output_cost`, `_variables`, `_problem`. -/
structure OptiSolver where
  solver : Opti
  cost : Option MXExpr
  optiSolution : Option OptiSol
  outputSolution : Option Val
  outputCost : Option Int
  vars : Option Val
  problem : Option Nat

/-- The engine state right after `cs.Opti(problem_type)` in `__post_init__`. -/
def Opti.fresh : Opti :=
  { nextId := 0, varHandles := [], paramHandles := [], initialStore := [],
    valueStore := [], constraints := [], minimized := none }

/-- An `OptiSolver` as produced by its dataclass constructor and
`__post_init__`: the engine handle exists, everything else is `None`. -/
def OptiSolver.fresh : OptiSolver :=
  { solver := Opti.fresh, cost := none, optiSolution := none,
    outputSolution := none, outputCost := none, vars := none,
    problem := none }

/-- Shape lookup used where the Python code reads `value.shape`: defined for
numpy arrays and MX handles; any other value raises `AttributeError`. -/
def Val.shapeAttr : Val → Except Err (List Nat)
  | .arr a => .ok a.dims
  | .mx _ r c => .ok [r, c]
  | _ => .error .attributeError

/-- `OptiSolver._generate_opti_object(storage_type, name, value)`: reject a
`None` value; for a numpy array reject `ndim > 2` and normalize `ndim < 2`
via `np.expand_dims(..., axis=1)`; then request a fresh engine handle of the
value's shape for the `Variable` or `Parameter` tag, and reject any other
storage tag. -/
def generateOptiObject (s : OptiSolver) (storageType : StorageTag)
    (name : String) (value : Val) : Except Err (OptiSolver × Val) :=
  match value with
  | .vnone =>
    .error (.valueError ("Field " ++ name ++ " is tagged as storage, but it is None."))
  | v =>
    let normalized : Except Err Val :=
      match v with
      | .arr a =>
        if a.dims.length > 2 then
          .error (.valueError ("Field " ++ name ++ " has number of dimensions greater than 2."))
        else if a.dims.length < 2 then
          match expandDims a with
          | .error e => .error e
          | .ok a' => .ok (.arr a')
        else .ok (.arr a)
      | w => .ok w
    match normalized with
    | .error e => .error e
    | .ok v' =>
      match storageType with
      | .storageVariable =>
        match v'.shapeAttr with
        | .error e => .error e
        | .ok [r, c] =>
          let (o, h) := s.solver.newVariable r c
          .ok ({ s with solver := o }, h)
        | .ok _ => .error (.typeError ("variable expects a row and a column count"))
      | .storageParameter =>
        match v'.shapeAttr with
        | .error e => .error e
        | .ok [r, c] =>
          let (o, h) := s.solver.newParameter r c
          .ok ({ s with solver := o }, h)
        | .ok _ => .error (.typeError ("parameter expects a row and a column count"))
      | .otherTag => .error (.valueError ("Unsupported input storage type"))

/-- The duck-typed classification of `_generate_objects_from_instance`
(lines 91–100): a field value is handled by recursive generation when it is an
`OptimizationObject`, or a list whose elements are all `OptimizationObject`s
or lists (vacuously including the empty list). -/
def isCompositeValue : Val → Bool
  | .obj _ => true
  | .vlist elems => elems.all fun e => (e matches Val.obj _) || (e matches Val.vlist _)
  | _ => false

/-- The per-element loop of the storage branch (lines 112–122): when the
storage-tagged value is a list, `_generate_opti_object` is applied to each
element in order, collecting the handles. -/
def generateStorageList (s : OptiSolver) (tag : StorageTag) (name : String)
    (vs : List Val) : Except Err (OptiSolver × List Val) :=
  match vs with
  | [] => .ok (s, [])
  | v :: rest =>
    match generateOptiObject s tag name v with
    | .error e => .error e
    | .ok (s₁, h) =>
      match generateStorageList s₁ tag name rest with
      | .error e => .error e
      | .ok (s₂, rest') => .ok (s₂, h :: rest')

mutual

/-- `OptiSolver.generate_optimization_objects(input_structure)`: dispatch on
whether the input is an `OptimizationObject`; otherwise
`_generate_objects_from_list` is entered, whose `assert isinstance(..., list)`
rejects anything that is not a list. -/
def generateOptimizationObjects (s : OptiSolver) (inputStructure : Val) :
    Except Err (OptiSolver × Val) :=
  match inputStructure with
  | .obj fields => generateObjectsFromInstance s fields
  | .vlist elems => generateObjectsFromList s elems
  | _ => .error .assertionError
termination_by (sizeOf inputStructure, 0)

/-- `OptiSolver._generate_objects_from_instance(input_structure)`: deep-copy
the input (pure values here), transform each field, store the result in
`self._variables`, and return it. -/
def generateObjectsFromInstance (s : OptiSolver)
    (fields : List (String × Option StorageTag × Val)) :
    Except Err (OptiSolver × Val) :=
  match generateFields s fields with
  | .error e => .error e
  | .ok (s', out) => .ok ({ s' with vars := some (Val.obj out) }, Val.obj out)
termination_by (sizeOf fields, 2)

/-- The field loop of `_generate_objects_from_instance` (lines 88–127),
threading the session state left to right. -/
def generateFields (s : OptiSolver)
    (fields : List (String × Option StorageTag × Val)) :
    Except Err (OptiSolver × List (String × Option StorageTag × Val)) :=
  match fields with
  | [] => .ok (s, [])
  | (name, meta, value) :: rest =>
    match generateField s name meta value with
    | .error e => .error e
    | .ok (s₁, value') =>
      match generateFields s₁ rest with
      | .error e => .error e
      | .ok (s₂, rest') => .ok (s₂, (name, meta, value') :: rest')
termination_by (sizeOf fields, 1)

/-- The loop body of `_generate_objects_from_instance` for one field:
composite values (per `isCompositeValue`) are regenerated recursively;
otherwise a storage-tagged field goes through `_generate_opti_object`
(element-wise when the value is a list); untagged fields are left as is. -/
def generateField (s : OptiSolver) (name : String) (meta : Option StorageTag)
    (value : Val) : Except Err (OptiSolver × Val) :=
  if isCompositeValue value then
    generateOptimizationObjects s value
  else
    match meta with
    | some tag =>
      match value with
      | .vlist vs =>
        match generateStorageList s tag name vs with
        | .error e => .error e
        | .ok (s', outs) => .ok (s', Val.vlist outs)
      | v => generateOptiObject s tag name v
    | none => .ok (s, value)
termination_by (sizeOf value, 2)

/-- `OptiSolver._generate_objects_from_list(input_structure)`: deep-copy the
list, regenerate each element in place, store the result list in
`self._variables`, and return it. -/
def generateObjectsFromList (s : OptiSolver) (elems : List Val) :
    Except Err (OptiSolver × Val) :=
  match generateListElems s elems with
  | .error e => .error e
  | .ok (s', outs) => .ok ({ s' with vars := some (Val.vlist outs) }, Val.vlist outs)
termination_by (sizeOf elems, 1)

/-- The element loop of `_generate_objects_from_list` (lines 138–139). -/
def generateListElems (s : OptiSolver) (elems : List Val) :
    Except Err (OptiSolver × List Val) :=
  match elems with
  | [] => .ok (s, [])
  | e :: rest =>
    match generateOptimizationObjects s e with
    | .error err => .error err
    | .ok (s₁, e') =>
      match generateListElems s₁ rest with
      | .error err => .error err
      | .ok (s₂, rest') => .ok (s₂, e' :: rest')
termination_by (sizeOf elems, 0)

end

/-- `getattr`/`hasattr` on a dataclass instance: look the field name up in the
instance's field list (`hasattr x n` is `(getattrF x n).isSome`). -/
def getattrF (v : Val) (name : String) : Option Val :=
  match v with
  | .obj fields =>
    match fields.find? (fun f => f.1 = name) with
    | some f => some f.2.2
    | none => none
  | _ => none

/-- Message of the `ValueError` for a non-array guess value (lines 211–216). -/
def guessNotArrayMsg (name : String) : String :=
  "The guess for the field " ++ name ++ " is not an numpy array."

/-- Message of the `ValueError` when the symbolic side lacks the guessed
variable field (lines 218–223). -/
def guessMissingVarsMsg (name : String) : String :=
  "The guess has the field " ++ name ++ " but it is not present in the optimization variables"

/-- Message of the `ValueError` when the symbolic side lacks the guessed
parameter field (lines 260–265). -/
def guessMissingParamsMsg (name : String) : String :=
  "The guess has the field " ++ name ++ " but it is not present in the optimization parameters"

/-- Message of the `ValueError` for a guess whose shape does not match the
corresponding symbolic leaf (lines 233–238 and 275–280). -/
def guessShapeMismatchMsg (name : String) : String :=
  "The guess has the field " ++ name ++ " but its dimension does not match with the corresponding optimization variable"

/-- Message of the `ValueError` when the symbolic side lacks a composite
field present in the guess (lines 288–293 and 310–315). -/
def guessMissingStructMsg (name : String) : String :=
  "The guess has the field " ++ name ++ " but it is not present in the optimization structure"

/-- Message of the `ValueError` when a guess list faces a non-list symbolic
field (lines 320–325). -/
def guessNotListMsg (name : String) : String :=
  "The guess has the field " ++ name ++ " as list, but the corresponding structure is not a list"

/-- Message of the `ValueError` when a nested guess list is longer than the
corresponding symbolic list (lines 329–334). -/
def guessNestedLenMsg (name : String) : String :=
  "The input guess is the list " ++ name ++ " but the corresponding variable structure is not a list"

/-- Message of the `ValueError` raised by `set_initial_guess` when a top-level
guess list faces a non-list live structure, or runs past its length
(lines 366–369 and 373–376: the source reuses one message for both). -/
def topGuessListMsg : String :=
  "The input guess is a list, but the specified variables structure is not"

/-- The guess shape normalization of lines 229–231 and 271–273:
`guess.shape if len(guess.shape) > 1 else (guess.shape[0], 1)`; on a 0-d
array `guess.shape[0]` raises `IndexError`. -/
def guessInputShape (g : NpArr) : Except Err (List Nat) :=
  if g.dims.length > 1 then .ok g.dims
  else match g.dims with
    | [n] => .ok [n, 1]
    | _ => .error .indexError

/-- `cs.Opti.set_initial(handle, value)`: record an initial value for a
decision-variable handle; casadi rejects a non-symbolic first argument. -/
def Opti.setInitial (o : Opti) (target : Val) (g : NpArr) : Except Err Opti :=
  match target with
  | .mx id _ _ => .ok { o with initialStore := (id, g) :: o.initialStore }
  | _ => .error (.typeError ("set_initial expects a symbolic handle"))

/-- `cs.Opti.set_value(handle, value)`: record the fixed value of a parameter
handle; casadi rejects a non-symbolic first argument. -/
def Opti.setValue (o : Opti) (target : Val) (g : NpArr) : Except Err Opti :=
  match target with
  | .mx id _ _ => .ok { o with valueStore := (id, g) :: o.valueStore }
  | _ => .error (.typeError ("set_value expects a symbolic handle"))

/-- The storage branches of `_set_initial_guess_internal` (lines 201–241 for
`Variable`-tagged fields and 243–283 for `Parameter`-tagged fields; the
source duplicates the code textually, differing only in the missing-field
message and in pushing via `set_initial` versus `set_value`, selected here by
`isVariableBranch`): a `None` guess value is skipped; a non-array value is
rejected; the symbolic side must expose the field; the
1-D-to-column-normalized guess shape must equal the symbolic leaf's shape;
then the value is pushed to the engine. -/
def guessStorageField (s : OptiSolver) (name : String) (value : Val)
    (corresponding : Val) (isVariableBranch : Bool) : Except Err OptiSolver :=
  match value with
  | .vnone => .ok s
  | .arr g =>
    match getattrF corresponding name with
    | none =>
      .error (.valueError
        (if isVariableBranch then guessMissingVarsMsg name else guessMissingParamsMsg name))
    | some corrV =>
      match guessInputShape g with
      | .error e => .error e
      | .ok ishape =>
        match corrV.shapeAttr with
        | .error e => .error e
        | .ok cshape =>
          if cshape ≠ ishape then
            .error (.valueError (guessShapeMismatchMsg name))
          else
            match (if isVariableBranch then s.solver.setInitial corrV g
                   else s.solver.setValue corrV g) with
            | .error e => .error e
            | .ok o => .ok { s with solver := o }
  | _ => .error (.valueError (guessNotArrayMsg name))

mutual

/-- `OptiSolver._set_initial_guess_internal(initial_guess,
corresponding_variable)`: iterate over the guess's dataclass fields
(`dataclasses.fields` rejects a non-dataclass argument). -/
def setInitialGuessInternal (s : OptiSolver) (initialGuess : Val)
    (corresponding : Val) : Except Err OptiSolver :=
  match initialGuess with
  | .obj fields => guessFields s fields corresponding
  | _ => .error (.typeError ("fields expects a dataclass instance"))
termination_by (sizeOf initialGuess, 0)

/-- The field loop of `_set_initial_guess_internal` (lines 198–340). -/
def guessFields (s : OptiSolver) (fields : List (String × Option StorageTag × Val))
    (corresponding : Val) : Except Err OptiSolver :=
  match fields with
  | [] => .ok s
  | (name, meta, value) :: rest =>
    match guessField s name meta value corresponding with
    | .error e => .error e
    | .ok s₁ => guessFields s₁ rest corresponding
termination_by (sizeOf fields, 0)

/-- The loop body of `_set_initial_guess_internal` for one guess field:
`Variable`- and `Parameter`-tagged fields go through the storage branches;
otherwise a composite value recurses (requiring the field on the symbolic
side), a list of composites recurses index-wise against the corresponding
symbolic list, and anything else is ignored. -/
def guessField (s : OptiSolver) (name : String) (meta : Option StorageTag)
    (value : Val) (corresponding : Val) : Except Err OptiSolver :=
  match meta with
  | some .storageVariable => guessStorageField s name value corresponding true
  | some .storageParameter => guessStorageField s name value corresponding false
  | _ =>
    match value with
    | .obj fs =>
      match getattrF corresponding name with
      | none => .error (.valueError (guessMissingStructMsg name))
      | some corrV => setInitialGuessInternal s (Val.obj fs) corrV
    | .vlist elems =>
      if elems.all (fun e => e matches Val.obj _) then
        match getattrF corresponding name with
        | none => .error (.valueError (guessMissingStructMsg name))
        | some (.vlist ws) => guessList s name elems ws
        | some _ => .error (.valueError (guessNotListMsg name))
      else .ok s
    | _ => .ok s
termination_by (sizeOf value, 1)

/-- The nested index-wise loop of lines 327–340: recurse per guess element;
a guess element beyond the corresponding symbolic list's length raises the
nested list-length `ValueError`; trailing symbolic elements are not visited. -/
def guessList (s : OptiSolver) (name : String) (elems ws : List Val) :
    Except Err OptiSolver :=
  match elems, ws with
  | [], _ => .ok s
  | _ :: _, [] => .error (.valueError (guessNestedLenMsg name))
  | e :: es, w :: wsRest =>
    match setInitialGuessInternal s e w with
    | .error err => .error err
    | .ok s₁ => guessList s₁ name es wsRest
termination_by (sizeOf elems, 0)

end

/-- The top-level index-wise loop of `set_initial_guess` (lines 371–381):
bind each guess element against the live structure's element of the same
index; a guess element beyond the live list's length raises the top-level
list `ValueError`; trailing live elements are not visited. -/
def setGuessTopLoop (s : OptiSolver) (gs ws : List Val) : Except Err OptiSolver :=
  match gs, ws with
  | [], _ => .ok s
  | _ :: _, [] => .error (.valueError topGuessListMsg)
  | g :: gsRest, w :: wsRest =>
    match setInitialGuessInternal s g w with
    | .error e => .error e
    | .ok s₁ => setGuessTopLoop s₁ gsRest wsRest

/-- `OptiSolver.set_initial_guess(initial_guess)`: a list guess requires the
live structure `self._variables` to be a list and is bound index-wise; any
other guess is bound directly against the live structure (which is `None`
before generation, making every looked-up field absent). -/
def setInitialGuess (s : OptiSolver) (initialGuess : Val) : Except Err OptiSolver :=
  match initialGuess with
  | .vlist gs =>
    match s.vars with
    | some (.vlist ws) => setGuessTopLoop s gs ws
    | _ => .error (.valueError topGuessListMsg)
  | g => setInitialGuessInternal s g (s.vars.getD Val.vnone)

mutual

/-- `OptiSolver._generate_solution_output(variables)`: a list input is
processed element-wise (lines 150–156); a dataclass instance field-wise
(lines 158–189); anything else reaches `dataclasses.fields` and is rejected. -/
def generateSolutionOutput (sol : OptiSol) (vrs : Val) : Except Err Val :=
  match vrs with
  | .vlist elems =>
    match solutionList sol elems with
    | .error e => .error e
    | .ok outs => .ok (.vlist outs)
  | .obj fields =>
    match solutionFields sol fields with
    | .error e => .error e
    | .ok outs => .ok (.obj outs)
  | _ => .error (.typeError ("fields expects a dataclass instance"))
termination_by (sizeOf vrs, 1)

/-- The element loop of the list branch of `_generate_solution_output`. -/
def solutionList (sol : OptiSol) (elems : List Val) : Except Err (List Val) :=
  match elems with
  | [] => .ok []
  | e :: rest =>
    match generateSolutionOutput sol e with
    | .error err => .error err
    | .ok e' =>
      match solutionList sol rest with
      | .error err => .error err
      | .ok rest' => .ok (e' :: rest')
termination_by (sizeOf elems, 0)

/-- The field loop of `_generate_solution_output` (lines 158–189). -/
def solutionFields (sol : OptiSol)
    (fields : List (String × Option StorageTag × Val)) :
    Except Err (List (String × Option StorageTag × Val)) :=
  match fields with
  | [] => .ok []
  | (name, meta, value) :: rest =>
    match solutionField sol meta value with
    | .error e => .error e
    | .ok value' =>
      match solutionFields sol rest with
      | .error e => .error e
      | .ok rest' => .ok ((name, meta, value') :: rest')
termination_by (sizeOf fields, 0)

/-- The loop body of `_generate_solution_output` for one field: a
`Variable`- or `Parameter`-tagged storage field is replaced by
`np.array(self._opti_solution.value(var))` (defined for a symbolic handle,
returning its solved numeric value at the handle's shape, and for a numeric
array, which casadi evaluates to itself; the storage-list case left
unhandled by the source reaches `value` with a list and is rejected); a
composite value, or a list whose elements are all `OptimizationObject`s,
recurses; anything else is left untouched. -/
def solutionField (sol : OptiSol) (meta : Option StorageTag) (value : Val) :
    Except Err Val :=
  match meta with
  | some .storageVariable | some .storageParameter =>
    match value with
    | .mx id r c => .ok (.arr (sol.handleValue id r c))
    | .arr a => .ok (.arr a)
    | _ => .error (.typeError ("value expects a symbolic or numeric argument"))
  | _ =>
    match value with
    | .obj fs => generateSolutionOutput sol (Val.obj fs)
    | .vlist elems =>
      if elems.all (fun e => e matches Val.obj _) then
        generateSolutionOutput sol (Val.vlist elems)
      else .ok (Val.vlist elems)
    | v => .ok v
termination_by (sizeOf value, 2)

end

/-- `OptiSolver.get_optimization_objects()`: return `self._variables`. -/
def getOptimizationObjects (s : OptiSolver) : Option Val :=
  s.vars

/-- `OptiSolver.register_problem(problem)`: store the opaque handle. -/
def registerProblem (s : OptiSolver) (p : Nat) : OptiSolver :=
  { s with problem := some p }

/-- `OptiSolver.get_problem()`: fail if no problem was registered. -/
def getProblem (s : OptiSolver) : Except Err Nat :=
  match s.problem with
  | none => .error .problemNotRegistered
  | some p => .ok p

/-- `OptiSolver.add_cost(input_cost)`: the first call stores the expression
in `self._cost`; later calls accumulate by symbolic addition (`+=`). -/
def addCost (s : OptiSolver) (inputCost : MXExpr) : OptiSolver :=
  match s.cost with
  | none => { s with cost := some inputCost }
  | some c => { s with cost := some (MXExpr.add c inputCost) }

/-- `OptiSolver.add_constraint(input_constraint)`: register the constraint
with the engine immediately (`self._solver.subject_to`). -/
def addConstraint (s : OptiSolver) (inputConstraint : MXExpr) : OptiSolver :=
  { s with solver :=
      { s.solver with constraints := inputConstraint :: s.solver.constraints } }

/-- `OptiSolver.cost_function()`: return `self._cost`. -/
def costFunction (s : OptiSolver) : Option MXExpr :=
  s.cost

/-- `OptiSolver.solve()`, parameterized by the black-box engine behavior
`engine` (what `self._solver.solve()` returns for a given engine state:
a solution handle, or a failure surfaced verbatim). Mirroring the source:
`self._solver.minimize(self._cost)` first — handing over `self._cost` even
when no cost was ever added, in which case the engine boundary rejects
`None` and nothing else runs; then the engine solve; on success
`self._opti_solution`, `self._output_cost` and `self._output_solution` are
assigned in that order. The returned pair is the session state after the
call together with the exception raised, if any (`none` on success). -/
def solveS (engine : Opti → Except Nat OptiSol) (s : OptiSolver) :
    OptiSolver × Option Err :=
  match s.cost with
  | none => (s, some (.typeError ("minimize expects an MX expression")))
  | some c =>
    let s₁ := { s with solver := { s.solver with minimized := some c } }
    match engine s₁.solver with
    | .error code => (s₁, some (.engineFailure code))
    | .ok sol =>
      let s₂ := { s₁ with optiSolution := some sol }
      let s₃ := { s₂ with outputCost := some (sol.exprValue c) }
      match generateSolutionOutput sol (s₃.vars.getD Val.vnone) with
      | .error e => (s₃, some e)
      | .ok out => ({ s₃ with outputSolution := some out }, none)

/-- `OptiSolver.get_values()`: fail while `self._output_solution` is `None`;
afterwards return the cached structure (the call has no other effect). -/
def getValues (s : OptiSolver) : Except Err Val :=
  match s.outputSolution with
  | none => .error .solutionNotAvailable
  | some v => .ok v

/-- `OptiSolver.get_cost_value()`: fail while `self._output_cost` is `None`;
afterwards return the cached value (the call has no other effect). -/
def getCostValue (s : OptiSolver) : Except Err Int :=
  match s.outputCost with
  | none => .error .solutionNotAvailable
  | some v => .ok v

namespace HeapModel

/-!
A second, heap-level embedding of the object-generation entry points, used
for the aliasing/frame property of `generate_optimization_objects`: the tree
embedding above is pure and cannot distinguish in-place mutation of the
caller's template from the deep-copy-then-transform the source performs, so
here Python object identity is explicit. Dataclass instances live in a heap
(address-indexed list of field tables); `copy.deepcopy` allocates fresh
addresses; `__setattr__` writes through an address. Control flow mirrors
`generate_optimization_objects` / `_generate_objects_from_instance` /
`_generate_objects_from_list` / `_generate_opti_object` exactly, with
recursion bounded by an explicit fuel parameter; an exception, or fuel
running out, yields `none` together with the heap as mutated so far.
-/

/-- A Python value in the heap model: as `Val`, except that a dataclass
instance is a reference `ref addr` into the heap. -/
inductive HVal where
  | hnone
  | plain (n : Int)
  | arr (a : NpArr)
  | mx (id rows cols : Nat)
  | ref (addr : Nat)
  | hlist (vs : List HVal)

/-- A heap object: the field table of one dataclass instance. -/
abbrev HObj := List (String × Option StorageTag × HVal)

/-- The heap: heap address `a` denotes the object at position `a`. -/
abbrev Heap := List HObj

/-- The slice of the session state `generate_optimization_objects` touches:
the engine's handle counter and `self._variables`. -/
structure HState where
  nextId : Nat
  vars : Option HVal

/-- `output.__setattr__(name, v)` on the object at `addr`. -/
def setattrH (h : Heap) (addr : Nat) (name : String) (v : HVal) : Heap :=
  match h[addr]? with
  | none => h
  | some fields =>
    h.set addr (fields.map fun f => if f.1 = name then (f.1, f.2.1, v) else f)

/-- `x.__getattribute__(name)` on the object at `addr`. -/
def getattrH (h : Heap) (addr : Nat) (name : String) : Option HVal :=
  match h[addr]? with
  | none => none
  | some fields =>
    match fields.find? (fun f => f.1 = name) with
    | some f => some f.2.2
    | none => none

mutual

/-- `copy.deepcopy` on a value: immutable leaves are returned as they are, a
reference is copied by copying its object's fields and allocating the copy
at a fresh address (the current end of the heap), a list element-wise. -/
def deepcopyV (fuel : Nat) (h : Heap) (v : HVal) : Heap × Option HVal :=
  match fuel with
  | 0 => (h, none)
  | fuel + 1 =>
    match v with
    | .ref addr =>
      match h[addr]? with
      | none => (h, none)
      | some fields =>
        match deepcopyFields fuel h fields with
        | (h₁, none) => (h₁, none)
        | (h₁, some fields') => (h₁ ++ [fields'], some (.ref h₁.length))
    | .hlist vs =>
      match deepcopyList fuel h vs with
      | (h₁, none) => (h₁, none)
      | (h₁, some vs') => (h₁, some (.hlist vs'))
    | v => (h, some v)

/-- `copy.deepcopy` on a field table, threading the heap left to right. -/
def deepcopyFields (fuel : Nat) (h : Heap) (fields : HObj) : Heap × Option HObj :=
  match fuel with
  | 0 => (h, none)
  | fuel + 1 =>
    match fields with
    | [] => (h, some [])
    | (name, meta, v) :: rest =>
      match deepcopyV fuel h v with
      | (h₁, none) => (h₁, none)
      | (h₁, some v') =>
        match deepcopyFields fuel h₁ rest with
        | (h₂, none) => (h₂, none)
        | (h₂, some rest') => (h₂, some ((name, meta, v') :: rest'))

/-- `copy.deepcopy` on a list of values, threading the heap left to right. -/
def deepcopyList (fuel : Nat) (h : Heap) (vs : List HVal) : Heap × Option (List HVal) :=
  match fuel with
  | 0 => (h, none)
  | fuel + 1 =>
    match vs with
    | [] => (h, some [])
    | v :: rest =>
      match deepcopyV fuel h v with
      | (h₁, none) => (h₁, none)
      | (h₁, some v') =>
        match deepcopyList fuel h₁ rest with
        | (h₂, none) => (h₂, none)
        | (h₂, some rest') => (h₂, some (v' :: rest'))

end

/-- The classification of lines 91–100 in the heap model: a dataclass
instance (a reference), or a list whose elements are all references or
lists. -/
def isCompositeH : HVal → Bool
  | .ref _ => true
  | .hlist elems => elems.all fun e => (e matches HVal.ref _) || (e matches HVal.hlist _)
  | _ => false

/-- `value.shape` in the heap model. -/
def shapeAttrH : HVal → Option (List Nat)
  | .arr a => some a.dims
  | .mx _ r c => some [r, c]
  | _ => none

/-- `_generate_opti_object` in the heap model: identical checks and shape
normalization as `generateOptiObject`, allocating a fresh handle id; it
touches no heap object. All exception paths collapse to `none`. -/
def hGenerateOptiObject (st : HState) (tag : StorageTag) (value : HVal) :
    Option (HState × HVal) :=
  match value with
  | .hnone => none
  | v =>
    let normalized : Option HVal :=
      match v with
      | .arr a =>
        if a.dims.length > 2 then none
        else if a.dims.length < 2 then
          match a.dims with
          | [n] => some (.arr ⟨[n, 1], a.data⟩)
          | _ => none
        else some (.arr a)
      | w => some w
    match normalized with
    | none => none
    | some v' =>
      match tag with
      | .otherTag => none
      | _ =>
        match shapeAttrH v' with
        | some [r, c] => some ({ st with nextId := st.nextId + 1 }, .mx st.nextId r c)
        | _ => none

/-- The storage-list loop of lines 112–122 in the heap model. -/
def hGenStorageList (st : HState) (tag : StorageTag) (vs : List HVal) :
    Option (HState × List HVal) :=
  match vs with
  | [] => some (st, [])
  | v :: rest =>
    match hGenerateOptiObject st tag v with
    | none => none
    | some (st₁, out) =>
      match hGenStorageList st₁ tag rest with
      | none => none
      | some (st₂, rest') => some (st₂, out :: rest')

mutual

/-- `generate_optimization_objects` in the heap model. -/
def hGenOpt (fuel : Nat) (st : HState) (h : Heap) (v : HVal) :
    Heap × Option (HState × HVal) :=
  match fuel with
  | 0 => (h, none)
  | fuel + 1 =>
    match v with
    | .ref addr => hGenInstance fuel st h addr
    | .hlist vs => hGenFromList fuel st h vs
    | _ => (h, none)

/-- `_generate_objects_from_instance` in the heap model: deep-copy the input
object, then walk the copy's field table, mutating the copy in place;
finally record the copy in `self._variables` and return it. -/
def hGenInstance (fuel : Nat) (st : HState) (h : Heap) (addr : Nat) :
    Heap × Option (HState × HVal) :=
  match fuel with
  | 0 => (h, none)
  | fuel + 1 =>
    match deepcopyV fuel h (.ref addr) with
    | (h₁, none) => (h₁, none)
    | (h₁, some (.ref caddr)) =>
      match h₁[caddr]? with
      | none => (h₁, none)
      | some fields =>
        match hGenLoop fuel st h₁ caddr (fields.map fun f => (f.1, f.2.1)) with
        | (h₂, none) => (h₂, none)
        | (h₂, some st₂) =>
          (h₂, some ({ st₂ with vars := some (.ref caddr) }, .ref caddr))
    | (h₁, some _) => (h₁, none)

/-- The field loop of `_generate_objects_from_instance` in the heap model:
iterate the field descriptors of the copy at `caddr`, reading the current
value through the heap and writing transformed values back through `caddr`. -/
def hGenLoop (fuel : Nat) (st : HState) (h : Heap) (caddr : Nat)
    (descriptors : List (String × Option StorageTag)) : Heap × Option HState :=
  match fuel with
  | 0 => (h, none)
  | fuel + 1 =>
    match descriptors with
    | [] => (h, some st)
    | (name, meta) :: rest =>
      match getattrH h caddr name with
      | none => (h, none)
      | some value =>
        if isCompositeH value then
          match hGenOpt fuel st h value with
          | (h₁, none) => (h₁, none)
          | (h₁, some (st₁, out)) =>
            hGenLoop fuel st₁ (setattrH h₁ caddr name out) caddr rest
        else
          match meta with
          | some tag =>
            match value with
            | .hlist vs =>
              match hGenStorageList st tag vs with
              | none => (h, none)
              | some (st₁, outs) =>
                hGenLoop fuel st₁ (setattrH h caddr name (.hlist outs)) caddr rest
            | v =>
              match hGenerateOptiObject st tag v with
              | none => (h, none)
              | some (st₁, out) =>
                hGenLoop fuel st₁ (setattrH h caddr name out) caddr rest
          | none => hGenLoop fuel st h caddr rest

/-- `_generate_objects_from_list` in the heap model: deep-copy the list, then
regenerate each copied element. -/
def hGenFromList (fuel : Nat) (st : HState) (h : Heap) (vs : List HVal) :
    Heap × Option (HState × HVal) :=
  match fuel with
  | 0 => (h, none)
  | fuel + 1 =>
    match deepcopyList fuel h vs with
    | (h₁, none) => (h₁, none)
    | (h₁, some vs') =>
      match hGenListLoop fuel st h₁ vs' with
      | (h₂, none) => (h₂, none)
      | (h₂, some (st₂, outs)) =>
        (h₂, some ({ st₂ with vars := some (.hlist outs) }, .hlist outs))

/-- The element loop of `_generate_objects_from_list` in the heap model. -/
def hGenListLoop (fuel : Nat) (st : HState) (h : Heap) (vs : List HVal) :
    Heap × Option (HState × List HVal) :=
  match fuel with
  | 0 => (h, none)
  | fuel + 1 =>
    match vs with
    | [] => (h, some (st, []))
    | v :: rest =>
      match hGenOpt fuel st h v with
      | (h₁, none) => (h₁, none)
      | (h₁, some (st₁, v')) =>
        match hGenListLoop fuel st₁ h₁ rest with
        | (h₂, none) => (h₂, none)
        | (h₂, some (st₂, rest')) => (h₂, some (st₂, v' :: rest'))

end

end HeapModel

/-- C6: `add_cost` accumulates by symbolic addition — in any session state
with no cost yet (`self._cost is None`), the first call stores exactly its
argument, and after calling `add_cost` with `a` and then `b` the stored cost
returned by `cost_function` is the symbolic sum of `a` and `b`, which
evaluates to `a + b` at every point. -/
theorem add_cost_accumulates (s : OptiSolver) (a b : MXExpr) (h : s.cost = none) :
    costFunction (addCost s a) = some a ∧
    costFunction (addCost (addCost s a) b) = some (MXExpr.add a b) ∧
    ∀ env : Nat → Int,
      ((costFunction (addCost (addCost s a) b)).getD (MXExpr.lit 0)).eval env
        = a.eval env + b.eval env := by
  refine ⟨?_, ?_, ?_⟩ <;> simp [addCost, costFunction, h, MXExpr.eval]

/-- C6 witness: the accumulation property at a fresh session with the
expressions `7` and `x0`. -/
theorem add_cost_accumulates_witness :
    OptiSolver.fresh.cost = none ∧
    (costFunction (addCost OptiSolver.fresh (MXExpr.lit 7)) = some (MXExpr.lit 7) ∧
     costFunction (addCost (addCost OptiSolver.fresh (MXExpr.lit 7)) (MXExpr.sym 0))
        = some (MXExpr.add (MXExpr.lit 7) (MXExpr.sym 0)) ∧
     ∀ env : Nat → Int,
       ((costFunction (addCost (addCost OptiSolver.fresh (MXExpr.lit 7)) (MXExpr.sym 0))).getD
          (MXExpr.lit 0)).eval env
         = (MXExpr.lit 7).eval env + (MXExpr.sym 0).eval env) :=
  ⟨rfl, add_cost_accumulates OptiSolver.fresh (MXExpr.lit 7) (MXExpr.sym 0) rfl⟩

/-- C1 counterexample: on a fresh session where `add_cost` was never called,
`solve()` does fail, but the raised error is the engine boundary's rejection
of `minimize(None)` — not the spec's session-level `NoCostError`: the source
contains no such check. -/
theorem solve_without_cost_not_noCost_counterexample :
    (solveS (fun _ => Except.error 0) OptiSolver.fresh).2.isSome = true ∧
    (solveS (fun _ => Except.error 0) OptiSolver.fresh).2 ≠ some Err.noCost := by
  constructor
  · rfl
  · intro hEq
    simp [solveS, OptiSolver.fresh] at hEq

/-- C1 (amended): calling `solve()` on a session whose cost was never set
fails before any engine solve is attempted — uniformly in the engine
behavior, which is never consulted — but with the engine boundary's
`TypeError` for `minimize(None)` rather than a session-level `NoCostError`,
and it leaves the session state unchanged. -/
theorem solve_without_cost_engine_boundary (engine : Opti → Except Nat OptiSol)
    (s : OptiSolver) (h : s.cost = none) :
    solveS engine s = (s, some (Err.typeError ("minimize expects an MX expression"))) := by
  simp [solveS, h]

/-- C1 witness: the amended behavior at a fresh session and a concrete
always-failing engine. -/
theorem solve_without_cost_engine_boundary_witness :
    OptiSolver.fresh.cost = none ∧
    solveS (fun _ => Except.error 0) OptiSolver.fresh
      = (OptiSolver.fresh, some (Err.typeError ("minimize expects an MX expression"))) :=
  ⟨rfl, solve_without_cost_engine_boundary (fun _ => Except.error 0) OptiSolver.fresh rfl⟩

/-- C2: for a STORAGE-tagged field (`Variable` or `Parameter`),
`_generate_opti_object` derives the handle's shape from the template value:
a 1-D array of length `n` yields a fresh handle of shape `(n, 1)`, a 2-D
array of shape `(r, c)` one of shape `(r, c)`; a `None` value and an array
of rank three or more are rejected with the corresponding shape
`ValueError`s. -/
theorem generate_storage_shapes (s : OptiSolver) (tag : StorageTag)
    (name : String)
    (htag : tag = StorageTag.storageVariable ∨ tag = StorageTag.storageParameter) :
    (∀ n data, ∃ s', generateOptiObject s tag name (.arr ⟨[n], data⟩)
        = .ok (s', .mx s.solver.nextId n 1)) ∧
    (∀ r c data, ∃ s', generateOptiObject s tag name (.arr ⟨[r, c], data⟩)
        = .ok (s', .mx s.solver.nextId r c)) ∧
    (generateOptiObject s tag name .vnone
        = .error (.valueError ("Field " ++ name ++ " is tagged as storage, but it is None."))) ∧
    (∀ dims data, dims.length ≥ 3 → generateOptiObject s tag name (.arr ⟨dims, data⟩)
        = .error (.valueError ("Field " ++ name ++ " has number of dimensions greater than 2."))) := by
  refine ⟨?_, ?_, ?_, ?_⟩
  · intro n data
    rcases htag with h | h <;> subst h <;> exact ⟨_, rfl⟩
  · intro r c data
    rcases htag with h | h <;> subst h <;> exact ⟨_, rfl⟩
  · rcases htag with h | h <;> subst h <;> rfl
  · intro dims data hlen
    rcases htag with h | h <;> subst h <;>
      simp [generateOptiObject, show dims.length > 2 by omega]

/-- C2 witness: shape derivation at concrete template values — a 1-D length-3
array, a 2-D 2-by-4 array, `None`, and a rank-3 array. -/
theorem generate_storage_shapes_witness :
    (StorageTag.storageVariable = StorageTag.storageVariable ∨
     StorageTag.storageVariable = StorageTag.storageParameter) ∧
    ((∀ n data, ∃ s', generateOptiObject OptiSolver.fresh .storageVariable ("x") (.arr ⟨[n], data⟩)
        = .ok (s', .mx OptiSolver.fresh.solver.nextId n 1)) ∧
     (∀ r c data, ∃ s', generateOptiObject OptiSolver.fresh .storageVariable ("x") (.arr ⟨[r, c], data⟩)
        = .ok (s', .mx OptiSolver.fresh.solver.nextId r c)) ∧
     (generateOptiObject OptiSolver.fresh .storageVariable ("x") .vnone
        = .error (.valueError ("Field " ++ "x" ++ " is tagged as storage, but it is None."))) ∧
     (∀ dims data, dims.length ≥ 3 →
        generateOptiObject OptiSolver.fresh .storageVariable ("x") (.arr ⟨dims, data⟩)
        = .error (.valueError ("Field " ++ "x" ++ " has number of dimensions greater than 2.")))) :=
  ⟨Or.inl rfl, generate_storage_shapes OptiSolver.fresh .storageVariable ("x") (Or.inl rfl)⟩

/-- C5: `get_values()` and `get_cost_value()` fail with the
solution-not-available exception whenever the cached solution (respectively
cost value) is absent — as it is before any `solve()`; an engine solve
failure propagates verbatim, changing nothing of the session except the
recorded objective, so the cached solution and cost value stay untouched
(and lookups keep failing if they failed before); after a successful solve
both lookups return exactly the cached outputs — the extracted solution
structure and the engine's cost value — and, `get_values` and
`get_cost_value` being pure reads, repeated calls return the same cached
values without re-solving. -/
theorem solution_availability :
    (∀ s : OptiSolver, s.outputSolution = none →
        getValues s = .error .solutionNotAvailable) ∧
    (∀ s : OptiSolver, s.outputCost = none →
        getCostValue s = .error .solutionNotAvailable) ∧
    (∀ (engine : Opti → Except Nat OptiSol) (s : OptiSolver) (c : MXExpr) (n : Nat),
        s.cost = some c →
        engine { s.solver with minimized := some c } = .error n →
        solveS engine s
          = ({ s with solver := { s.solver with minimized := some c } },
             some (.engineFailure n)) ∧
        (solveS engine s).1.outputSolution = s.outputSolution ∧
        (solveS engine s).1.outputCost = s.outputCost) ∧
    (∀ (engine : Opti → Except Nat OptiSol) (s s' : OptiSolver),
        solveS engine s = (s', none) →
        ∃ sol out c, s.cost = some c ∧
          s'.optiSolution = some sol ∧
          generateSolutionOutput sol (s.vars.getD Val.vnone) = .ok out ∧
          s'.outputSolution = some out ∧
          s'.outputCost = some (sol.exprValue c) ∧
          getValues s' = .ok out ∧
          getCostValue s' = .ok (sol.exprValue c)) := by
  refine ⟨?_, ?_, ?_, ?_⟩
  · intro s h; simp [getValues, h]
  · intro s h; simp [getCostValue, h]
  · intro engine s c n hc heng
    simp [solveS, hc, heng]
  · intro engine s s' h
    rcases hc : s.cost with _ | c
    · simp [solveS, hc] at h
    · rcases heng : engine { s.solver with minimized := some c } with n | sol
      · simp [solveS, hc, heng] at h
      · rcases hout : generateSolutionOutput sol (s.vars.getD Val.vnone) with e | out
        · simp [solveS, hc, heng, hout] at h
        · simp [solveS, hc, heng, hout] at h
          subst h
          exact ⟨sol, out, c, rfl, rfl, hout, rfl, rfl, rfl, rfl⟩

/-- Session used by the C5 witness: cost set and one generated variable leaf
of shape `(3, 1)`. -/
def sessionW : OptiSolver :=
  { OptiSolver.fresh with
      cost := some (MXExpr.lit 1),
      vars := some (.obj [(("x"), some .storageVariable, .mx 0 3 1)]) }

/-- Engine solution handle used by the C5 witness. -/
def solW : OptiSol :=
  { handleValue := fun _ r c => ⟨[r, c], []⟩, exprValue := fun _ => 42 }

/-- Session state after the successful solve of the C5 witness. -/
def sessionW' : OptiSolver :=
  { sessionW with
      solver := { sessionW.solver with minimized := some (MXExpr.lit 1) },
      optiSolution := some solW,
      outputCost := some 42,
      outputSolution := some (.obj [(("x"), some .storageVariable, .arr ⟨[3, 1], []⟩)]) }

/-- C5 witness: availability failures at the fresh session, an engine
failure leaving the cached outputs untouched, and a successful solve whose
outputs both getters return. -/
theorem solution_availability_witness :
    (OptiSolver.fresh.outputSolution = none ∧
      getValues OptiSolver.fresh = .error .solutionNotAvailable) ∧
    (OptiSolver.fresh.outputCost = none ∧
      getCostValue OptiSolver.fresh = .error .solutionNotAvailable) ∧
    (sessionW.cost = some (MXExpr.lit 1) ∧
      ((fun _ => Except.error 5) : Opti → Except Nat OptiSol)
          { sessionW.solver with minimized := some (MXExpr.lit 1) } = .error 5 ∧
      (solveS (fun _ => Except.error 5) sessionW
          = ({ sessionW with solver := { sessionW.solver with minimized := some (MXExpr.lit 1) } },
             some (.engineFailure 5)) ∧
        (solveS (fun _ => Except.error 5) sessionW).1.outputSolution = sessionW.outputSolution ∧
        (solveS (fun _ => Except.error 5) sessionW).1.outputCost = sessionW.outputCost)) ∧
    (solveS (fun _ => Except.ok solW) sessionW = (sessionW', none) ∧
      ∃ sol out c, sessionW.cost = some c ∧
        sessionW'.optiSolution = some sol ∧
        generateSolutionOutput sol (sessionW.vars.getD Val.vnone) = .ok out ∧
        sessionW'.outputSolution = some out ∧
        sessionW'.outputCost = some (sol.exprValue c) ∧
        getValues sessionW' = .ok out ∧
        getCostValue sessionW' = .ok (sol.exprValue c)) := by
  have hsolve : solveS (fun _ => Except.ok solW) sessionW = (sessionW', none) := by
    simp [solveS, sessionW, sessionW', solW, generateSolutionOutput, solutionFields,
      solutionField, OptiSolver.fresh, Opti.fresh]
  refine ⟨⟨rfl, ?_⟩, ⟨rfl, ?_⟩, ⟨rfl, rfl, ?_⟩, hsolve, ?_⟩
  · exact solution_availability.1 OptiSolver.fresh rfl
  · exact solution_availability.2.1 OptiSolver.fresh rfl
  · exact solution_availability.2.2.1 (fun _ => Except.error 5) sessionW (MXExpr.lit 1) 5 rfl rfl
  · exact solution_availability.2.2.2 (fun _ => Except.ok solW) sessionW sessionW' hsolve

/-- C3: binding a guess structure holding one STORAGE field (`Variable` or
`Parameter` tagged) against the symbolic structure whose corresponding leaf
is a handle of shape `(r, c)`: a `None` value is skipped (no session
change); a non-array value (here: a plain scalar) fails with the
not-an-array `ValueError`; an array whose 1-D-to-column-normalized shape
differs from `(r, c)` fails with the shape-mismatch `ValueError` naming the
field; and a matching array is pushed to the engine — into the
initial-value store for a `Variable` field, into the fixed-value store for
a `Parameter` field. -/
theorem bind_guess_storage_field (s : OptiSolver) (name : String)
    (tag : StorageTag) (v : Val) (id r c : Nat)
    (htag : tag = StorageTag.storageVariable ∨ tag = StorageTag.storageParameter) :
    (v = .vnone →
      setInitialGuessInternal s (.obj [(name, some tag, v)])
          (.obj [(name, some tag, .mx id r c)]) = .ok s) ∧
    (∀ p, v = .plain p →
      setInitialGuessInternal s (.obj [(name, some tag, v)])
          (.obj [(name, some tag, .mx id r c)])
        = .error (.valueError (guessNotArrayMsg name))) ∧
    (∀ g ishape, v = .arr g → guessInputShape g = .ok ishape → ishape ≠ [r, c] →
      setInitialGuessInternal s (.obj [(name, some tag, v)])
          (.obj [(name, some tag, .mx id r c)])
        = .error (.valueError (guessShapeMismatchMsg name))) ∧
    (∀ g, v = .arr g → guessInputShape g = .ok [r, c] →
      setInitialGuessInternal s (.obj [(name, some tag, v)])
          (.obj [(name, some tag, .mx id r c)])
        = .ok { s with solver :=
            if tag = StorageTag.storageVariable then
              { s.solver with initialStore := (id, g) :: s.solver.initialStore }
            else
              { s.solver with valueStore := (id, g) :: s.solver.valueStore } }) := by
  refine ⟨?_, ?_, ?_, ?_⟩
  · rintro rfl
    rcases htag with h | h <;> subst h <;>
      simp [setInitialGuessInternal, guessFields, guessField, guessStorageField]
  · rintro p rfl
    rcases htag with h | h <;> subst h <;>
      simp [setInitialGuessInternal, guessFields, guessField, guessStorageField]
  · rintro g ishape rfl hshape hne
    rcases htag with h | h <;> subst h <;>
      simp [setInitialGuessInternal, guessFields, guessField, guessStorageField,
        getattrF, hshape, Val.shapeAttr, Ne.symm hne]
  · rintro g rfl hshape
    rcases htag with h | h <;> subst h <;>
      simp [setInitialGuessInternal, guessFields, guessField, guessStorageField,
        getattrF, hshape, Val.shapeAttr, Opti.setInitial, Opti.setValue]

/-- C3 witness: the four storage-binding behaviors at concrete inputs — a
skipped `None`, a rejected plain scalar, a rejected 1-D length-4 guess
against a `(3, 1)` leaf, and an accepted 1-D length-3 guess pushed to the
initial-value store. -/
theorem bind_guess_storage_field_witness :
    (Val.vnone = Val.vnone ∧
      setInitialGuessInternal OptiSolver.fresh
          (.obj [(("x"), some .storageVariable, Val.vnone)])
          (.obj [(("x"), some .storageVariable, .mx 0 3 1)]) = .ok OptiSolver.fresh) ∧
    (setInitialGuessInternal OptiSolver.fresh
          (.obj [(("x"), some .storageVariable, Val.plain 9)])
          (.obj [(("x"), some .storageVariable, .mx 0 3 1)])
        = .error (.valueError (guessNotArrayMsg ("x")))) ∧
    (guessInputShape ⟨[4], []⟩ = .ok [4, 1] ∧ [4, 1] ≠ [3, 1] ∧
      setInitialGuessInternal OptiSolver.fresh
          (.obj [(("x"), some .storageVariable, .arr ⟨[4], []⟩)])
          (.obj [(("x"), some .storageVariable, .mx 0 3 1)])
        = .error (.valueError (guessShapeMismatchMsg ("x")))) ∧
    (guessInputShape ⟨[3], [1, 2, 3]⟩ = .ok [3, 1] ∧
      setInitialGuessInternal OptiSolver.fresh
          (.obj [(("x"), some .storageVariable, .arr ⟨[3], [1, 2, 3]⟩)])
          (.obj [(("x"), some .storageVariable, .mx 0 3 1)])
        = .ok { OptiSolver.fresh with solver :=
            { OptiSolver.fresh.solver with
                initialStore := (0, ⟨[3], [1, 2, 3]⟩) :: OptiSolver.fresh.solver.initialStore } }) := by
  refine ⟨⟨rfl, ?_⟩, ?_, ⟨rfl, by decide, ?_⟩, rfl, ?_⟩
  · exact (bind_guess_storage_field OptiSolver.fresh ("x") .storageVariable Val.vnone 0 3 1
      (Or.inl rfl)).1 rfl
  · exact (bind_guess_storage_field OptiSolver.fresh ("x") .storageVariable (Val.plain 9) 0 3 1
      (Or.inl rfl)).2.1 9 rfl
  · exact (bind_guess_storage_field OptiSolver.fresh ("x") .storageVariable (.arr ⟨[4], []⟩) 0 3 1
      (Or.inl rfl)).2.2.1 ⟨[4], []⟩ [4, 1] rfl rfl (by decide)
  · have h := (bind_guess_storage_field OptiSolver.fresh ("x") .storageVariable
      (.arr ⟨[3], [1, 2, 3]⟩) 0 3 1 (Or.inl rfl)).2.2.2 ⟨[3], [1, 2, 3]⟩ rfl rfl
    simpa using h

/-- If the top-level guess list is longer than the live list and binding its
first `ws.length` elements succeeds, the loop of `set_initial_guess` runs
past the live list and raises the top-level list `ValueError`. -/
theorem setGuessTopLoop_overrun (ws : List Val) :
    ∀ (gs : List Val) (s s₁ : OptiSolver), ws.length < gs.length →
      setGuessTopLoop s (gs.take ws.length) ws = .ok s₁ →
      setGuessTopLoop s gs ws = .error (.valueError topGuessListMsg) := by
  induction ws with
  | nil =>
    intro gs s s₁ hlen _
    cases gs with
    | nil => simp at hlen
    | cons g gs' => simp [setGuessTopLoop]
  | cons w ws' ih =>
    intro gs s s₁ hlen hpre
    cases gs with
    | nil => simp at hlen
    | cons g gs' =>
      simp only [List.length_cons, List.take_succ_cons, setGuessTopLoop] at hpre ⊢
      cases hg : setInitialGuessInternal s g w with
      | error e => rw [hg] at hpre; cases hpre
      | ok s₂ =>
        rw [hg] at hpre
        exact ih gs' s₂ s₁ (by simpa using hlen) hpre

/-- If the top-level guess list is no longer than the live list, the loop of
`set_initial_guess` never looks past the first `gs.length` live elements. -/
theorem setGuessTopLoop_prefix (gs : List Val) :
    ∀ (ws : List Val) (s : OptiSolver), gs.length ≤ ws.length →
      setGuessTopLoop s gs ws = setGuessTopLoop s gs (ws.take gs.length) := by
  induction gs with
  | nil => intro ws s _; simp [setGuessTopLoop]
  | cons g gs' ih =>
    intro ws s hlen
    cases ws with
    | nil => simp at hlen
    | cons w ws' =>
      simp only [List.length_cons, List.take_succ_cons, setGuessTopLoop]
      cases hg : setInitialGuessInternal s g w with
      | error e => rfl
      | ok s₂ => exact ih ws' s₂ (by simpa using hlen)

/-- Nested counterpart of `setGuessTopLoop_overrun` for the per-field list
loop of `_set_initial_guess_internal`. -/
theorem guessList_overrun (ws : List Val) :
    ∀ (elems : List Val) (name : String) (s s₁ : OptiSolver),
      ws.length < elems.length →
      guessList s name (elems.take ws.length) ws = .ok s₁ →
      guessList s name elems ws = .error (.valueError (guessNestedLenMsg name)) := by
  induction ws with
  | nil =>
    intro elems name s s₁ hlen _
    cases elems with
    | nil => simp at hlen
    | cons e es => simp [guessList]
  | cons w ws' ih =>
    intro elems name s s₁ hlen hpre
    cases elems with
    | nil => simp at hlen
    | cons e es =>
      simp only [List.length_cons, List.take_succ_cons, guessList] at hpre ⊢
      cases hg : setInitialGuessInternal s e w with
      | error err => rw [hg] at hpre; cases hpre
      | ok s₂ =>
        rw [hg] at hpre
        exact ih es name s₂ s₁ (by simpa using hlen) hpre

/-- Nested counterpart of `setGuessTopLoop_prefix`. -/
theorem guessList_prefix (elems : List Val) :
    ∀ (ws : List Val) (name : String) (s : OptiSolver),
      elems.length ≤ ws.length →
      guessList s name elems ws = guessList s name elems (ws.take elems.length) := by
  induction elems with
  | nil => intro ws name s _; simp [guessList]
  | cons e es ih =>
    intro ws name s hlen
    cases ws with
    | nil => simp at hlen
    | cons w ws' =>
      simp only [List.length_cons, List.take_succ_cons, guessList]
      cases hg : setInitialGuessInternal s e w with
      | error err => rfl
      | ok s₂ => exact ih ws' name s₂ (by simpa using hlen)

/-- C4: binding a guess list against a symbolic list — at top level through
`set_initial_guess`, or at a ListOfComposite field through the field loop of
`_set_initial_guess_internal` — fails with the list-length `ValueError` when
the guess list has more elements than the symbolic list (once the in-range
prefix has bound successfully, the loop runs past the symbolic list), while
a shorter guess list binds index-wise and never looks at the trailing
symbolic elements, which stay unguessed. -/
theorem bind_guess_list_lengths :
    (∀ (s : OptiSolver) (gs ws : List Val) (s₁ : OptiSolver),
        s.vars = some (.vlist ws) → ws.length < gs.length →
        setGuessTopLoop s (gs.take ws.length) ws = .ok s₁ →
        setInitialGuess s (.vlist gs) = .error (.valueError topGuessListMsg)) ∧
    (∀ (s : OptiSolver) (gs ws : List Val),
        s.vars = some (.vlist ws) → gs.length ≤ ws.length →
        setInitialGuess s (.vlist gs) = setGuessTopLoop s gs (ws.take gs.length)) ∧
    (∀ (s : OptiSolver) (name : String) (elems ws : List Val)
        (corrFields : List (String × Option StorageTag × Val)) (s₁ : OptiSolver),
        elems.all (fun e => e matches Val.obj _) = true →
        getattrF (.obj corrFields) name = some (.vlist ws) →
        ws.length < elems.length →
        guessList s name (elems.take ws.length) ws = .ok s₁ →
        guessField s name none (.vlist elems) (.obj corrFields)
          = .error (.valueError (guessNestedLenMsg name))) ∧
    (∀ (s : OptiSolver) (name : String) (elems ws : List Val)
        (corrFields : List (String × Option StorageTag × Val)),
        elems.all (fun e => e matches Val.obj _) = true →
        getattrF (.obj corrFields) name = some (.vlist ws) →
        elems.length ≤ ws.length →
        guessField s name none (.vlist elems) (.obj corrFields)
          = guessList s name elems (ws.take elems.length)) := by
  refine ⟨?_, ?_, ?_, ?_⟩
  · intro s gs ws s₁ hvars hlen hpre
    simp only [setInitialGuess, hvars]
    exact setGuessTopLoop_overrun ws gs s s₁ hlen hpre
  · intro s gs ws hvars hlen
    simp only [setInitialGuess, hvars]
    exact setGuessTopLoop_prefix gs ws s hlen
  · intro s name elems ws corrFields s₁ hall hattr hlen hpre
    simp only [guessField, hall, hattr, if_true]
    exact guessList_overrun ws elems name s s₁ hlen hpre
  · intro s name elems ws corrFields hall hattr hlen
    simp only [guessField, hall, hattr, if_true]
    exact guessList_prefix elems ws name s hlen

/-- C4 witness: a guess list of length 3 against a live list of length 2
fails with the top-level list error while length 1 against length 3 binds
only the first live element; the same two behaviors at a nested
ListOfComposite field. The composite elements are empty dataclasses, whose
binding trivially succeeds. -/
theorem bind_guess_list_lengths_witness :
    (({ OptiSolver.fresh with vars := some (.vlist [.obj [], .obj []]) } : OptiSolver).vars
        = some (.vlist [.obj [], .obj []]) ∧
      (2 : Nat) < 3 ∧
      setGuessTopLoop { OptiSolver.fresh with vars := some (.vlist [.obj [], .obj []]) }
          (([Val.obj [], .obj [], .obj []]).take 2) [.obj [], .obj []]
        = .ok { OptiSolver.fresh with vars := some (.vlist [.obj [], .obj []]) } ∧
      setInitialGuess { OptiSolver.fresh with vars := some (.vlist [.obj [], .obj []]) }
          (.vlist [.obj [], .obj [], .obj []])
        = .error (.valueError topGuessListMsg)) ∧
    (setInitialGuess { OptiSolver.fresh with vars := some (.vlist [.obj [], .obj [], .obj []]) }
          (.vlist [.obj []])
        = setGuessTopLoop { OptiSolver.fresh with vars := some (.vlist [.obj [], .obj [], .obj []]) }
            [.obj []] (([Val.obj [], .obj [], .obj []]).take 1)) ∧
    (guessField OptiSolver.fresh ("l") none (.vlist [.obj [], .obj []])
          (.obj [(("l"), none, .vlist [.obj []])])
        = .error (.valueError (guessNestedLenMsg ("l")))) ∧
    (guessField OptiSolver.fresh ("l") none (.vlist [.obj []])
          (.obj [(("l"), none, .vlist [.obj [], .obj []])])
        = guessList OptiSolver.fresh ("l") [.obj []] (([Val.obj [], .obj []]).take 1)) := by
  have hbind : ∀ s : OptiSolver, setInitialGuessInternal s (.obj []) (.obj []) = .ok s := by
    intro s; simp [setInitialGuessInternal, guessFields]
  have hpre2 : setGuessTopLoop { OptiSolver.fresh with vars := some (.vlist [.obj [], .obj []]) }
      (([Val.obj [], .obj [], .obj []]).take 2) [.obj [], .obj []]
      = .ok { OptiSolver.fresh with vars := some (.vlist [.obj [], .obj []]) } := by
    simp [setGuessTopLoop, hbind]
  refine ⟨⟨rfl, by decide, hpre2, ?_⟩, ?_, ?_, ?_⟩
  · exact bind_guess_list_lengths.1 _ [.obj [], .obj [], .obj []] [.obj [], .obj []] _ rfl
      (by decide) hpre2
  · exact bind_guess_list_lengths.2.1 _ [.obj []] [.obj [], .obj [], .obj []] rfl
      (by decide)
  · have hpre1 : guessList OptiSolver.fresh ("l")
        (([Val.obj [], .obj []]).take 1) [.obj []] = .ok OptiSolver.fresh := by
      simp [guessList, hbind]
    exact bind_guess_list_lengths.2.2.1 OptiSolver.fresh ("l") [.obj [], .obj []] [.obj []]
      [(("l"), none, .vlist [.obj []])] OptiSolver.fresh rfl rfl (by decide) hpre1
  · exact bind_guess_list_lengths.2.2.2 OptiSolver.fresh ("l") [.obj []]
      [.obj [], .obj []] [(("l"), none, .vlist [.obj [], .obj []])] rfl rfl (by decide)

/-- The element loop of `_generate_objects_from_list` writes each regenerated
element back in place, so a successful run preserves the list length. -/
theorem generateListElems_length (vs : List Val) :
    ∀ (s s₀ : OptiSolver) (outs : List Val),
      generateListElems s vs = .ok (s₀, outs) → outs.length = vs.length := by
  induction vs with
  | nil => intro s s₀ outs h; simp [generateListElems] at h; simp [h.2.symm]
  | cons v rest ih =>
    intro s s₀ outs h
    simp only [generateListElems] at h
    cases hv : generateOptimizationObjects s v with
    | error e => rw [hv] at h; simp at h
    | ok p =>
      obtain ⟨s₁, e₁⟩ := p
      rw [hv] at h
      dsimp only at h
      cases hrest : generateListElems s₁ rest with
      | error e => rw [hrest] at h; simp at h
      | ok q =>
        obtain ⟨s₂, outs'⟩ := q
        rw [hrest] at h
        simp only [Except.ok.injEq, Prod.mk.injEq] at h
        obtain ⟨-, houts⟩ := h
        subst houts
        simp [ih s₁ s₂ outs' hrest]

/-- C8: for a non-empty list input, `generate_optimization_objects` runs the
element loop of `_generate_objects_from_list` — the single-structure
generation applied to each element in order with the session threaded
through — returns a list of identical length, and installs exactly that
result list as the session's live structure (replacing whatever
`self._variables` held before), which `get_optimization_objects` then
returns. -/
theorem generate_from_list_contract (s : OptiSolver) (vs : List Val)
    (s' : OptiSolver) (out : Val) (hne : vs ≠ [])
    (h : generateOptimizationObjects s (.vlist vs) = .ok (s', out)) :
    ∃ s₀ outs, generateListElems s vs = .ok (s₀, outs) ∧
      out = .vlist outs ∧ outs.length = vs.length ∧
      s' = { s₀ with vars := some (.vlist outs) } ∧
      getOptimizationObjects s' = some (.vlist outs) := by
  simp only [generateOptimizationObjects, generateObjectsFromList] at h
  cases hle : generateListElems s vs with
  | error e => rw [hle] at h; simp at h
  | ok p =>
    obtain ⟨s₀, outs⟩ := p
    rw [hle] at h
    simp only [Except.ok.injEq, Prod.mk.injEq] at h
    obtain ⟨hs', hout⟩ := h
    exact ⟨s₀, outs, rfl, hout.symm,
      generateListElems_length vs s s₀ outs hle, hs'.symm, by rw [hs'.symm]; rfl⟩

/-- C8 witness: a two-element list of single-variable templates. -/
theorem generate_from_list_contract_witness :
    ([Val.obj [(("x"), some StorageTag.storageVariable, .arr ⟨[2], [0, 0]⟩)],
      Val.obj [(("x"), some StorageTag.storageVariable, .arr ⟨[3], [0, 0, 0]⟩)]] ≠ []) ∧
    ∃ (s' : OptiSolver) (out : Val),
      generateOptimizationObjects OptiSolver.fresh
          (.vlist [Val.obj [(("x"), some StorageTag.storageVariable, .arr ⟨[2], [0, 0]⟩)],
                   Val.obj [(("x"), some StorageTag.storageVariable, .arr ⟨[3], [0, 0, 0]⟩)]])
        = .ok (s', out) ∧
      ∃ s₀ outs, generateListElems OptiSolver.fresh
          [Val.obj [(("x"), some StorageTag.storageVariable, .arr ⟨[2], [0, 0]⟩)],
           Val.obj [(("x"), some StorageTag.storageVariable, .arr ⟨[3], [0, 0, 0]⟩)]]
          = .ok (s₀, outs) ∧
        out = .vlist outs ∧
        outs.length = 2 ∧
        s' = { s₀ with vars := some (.vlist outs) } ∧
        getOptimizationObjects s' = some (.vlist outs) := by
  refine ⟨by simp, ?_⟩
  have hgen : generateOptimizationObjects OptiSolver.fresh
      (.vlist [Val.obj [(("x"), some StorageTag.storageVariable, .arr ⟨[2], [0, 0]⟩)],
               Val.obj [(("x"), some StorageTag.storageVariable, .arr ⟨[3], [0, 0, 0]⟩)]])
      = .ok ({ OptiSolver.fresh with
                solver :=
                  { Opti.fresh with nextId := 2, varHandles := [(1, 3, 1), (0, 2, 1)] },
                vars := some (.vlist
                  [.obj [(("x"), some StorageTag.storageVariable, .mx 0 2 1)],
                   .obj [(("x"), some StorageTag.storageVariable, .mx 1 3 1)]]) },
             .vlist [.obj [(("x"), some StorageTag.storageVariable, .mx 0 2 1)],
                     .obj [(("x"), some StorageTag.storageVariable, .mx 1 3 1)]]) := by
    simp [generateOptimizationObjects, generateObjectsFromList, generateListElems,
      generateObjectsFromInstance, generateFields, generateField, isCompositeValue,
      generateOptiObject, expandDims, Val.shapeAttr, Opti.newVariable,
      OptiSolver.fresh, Opti.fresh]
  exact ⟨_, _, hgen, generate_from_list_contract OptiSolver.fresh _ _ _ (by simp) hgen⟩

/-- A field is PlainData in the sense of the source's classification: no
storage key in its metadata, and a value that the duck-typed composite test
of lines 91–100 does not classify as composite. -/
def isPlainDataField (f : String × Option StorageTag × Val) : Bool :=
  f.2.1.isNone && !(isCompositeValue f.2.2)

/-- The field loop of `_generate_objects_from_instance` leaves PlainData
fields, and the session, entirely unchanged. -/
theorem generateFields_plain (fs : List (String × Option StorageTag × Val)) :
    ∀ s : OptiSolver, (∀ f ∈ fs, isPlainDataField f = true) →
      generateFields s fs = .ok (s, fs) := by
  induction fs with
  | nil => intro s _; simp [generateFields]
  | cons f rest ih =>
    intro s h
    obtain ⟨name, meta, v⟩ := f
    have hf := h _ (List.mem_cons_self _ _)
    simp only [isPlainDataField, Bool.and_eq_true, Bool.not_eq_true',
      Option.isNone_iff_eq_none] at hf
    simp only [generateFields, generateField, hf.1, hf.2, Bool.false_eq_true,
      if_false]
    rw [ih s (fun g hg => h g (List.mem_cons_of_mem _ hg))]

/-- C9: for a template whose fields are all PlainData (no storage tag, no
composite or list-of-composite value), `_generate_objects_from_instance`
returns the deep copy of the input unchanged — every field value equal to
the template's — and installs it as the live structure; the session is
otherwise untouched. -/
theorem generate_plain_data_identity (s : OptiSolver)
    (fs : List (String × Option StorageTag × Val))
    (h : ∀ f ∈ fs, isPlainDataField f = true) :
    generateObjectsFromInstance s fs
      = .ok ({ s with vars := some (.obj fs) }, .obj fs) := by
  simp only [generateObjectsFromInstance, generateFields_plain fs s h]

/-- C9 witness: a template with a plain scalar, an untagged numeric array
and a plain list of scalars. -/
theorem generate_plain_data_identity_witness :
    (∀ f ∈ [(("a"), (none : Option StorageTag), Val.plain 1),
            (("b"), none, Val.arr ⟨[2], [4, 5]⟩),
            (("c"), none, Val.vlist [Val.plain 2, Val.plain 3])],
        isPlainDataField f = true) ∧
    generateObjectsFromInstance OptiSolver.fresh
        [(("a"), none, Val.plain 1),
         (("b"), none, Val.arr ⟨[2], [4, 5]⟩),
         (("c"), none, Val.vlist [Val.plain 2, Val.plain 3])]
      = .ok ({ OptiSolver.fresh with vars := some (.obj
            [(("a"), none, Val.plain 1),
             (("b"), none, Val.arr ⟨[2], [4, 5]⟩),
             (("c"), none, Val.vlist [Val.plain 2, Val.plain 3])]) },
          .obj [(("a"), none, Val.plain 1),
                (("b"), none, Val.arr ⟨[2], [4, 5]⟩),
                (("c"), none, Val.vlist [Val.plain 2, Val.plain 3])]) := by
  have h : ∀ f ∈ [(("a"), (none : Option StorageTag), Val.plain 1),
            (("b"), none, Val.arr ⟨[2], [4, 5]⟩),
            (("c"), none, Val.vlist [Val.plain 2, Val.plain 3])],
      isPlainDataField f = true := by
    intro f hf
    simp only [List.mem_cons, List.not_mem_nil, or_false] at hf
    rcases hf with rfl | rfl | rfl <;> rfl
  exact ⟨h, generate_plain_data_identity OptiSolver.fresh _ h⟩

/-- The 1-D-to-column shape normalization of `_generate_opti_object`, as a
shape function: length-`n` vectors become `(n, 1)`, matrices stay `(r, c)`
(other ranks do not reach handle creation). -/
def normShape (dims : List Nat) : Nat × Nat :=
  match dims with
  | [n] => (n, 1)
  | [r, c] => (r, c)
  | _ => (0, 0)

/-- The handles `_generate_opti_object` hands out for consecutive requests:
ids counting up from `start`, shapes the normalized template shapes. -/
def mkHandles (start : Nat) (as : List NpArr) : List Val :=
  match as with
  | [] => []
  | a :: rest => Val.mx start (normShape a.dims).1 (normShape a.dims).2 :: mkHandles (start + 1) rest

/-- `mkHandles` yields one handle per template array. -/
theorem mkHandles_length (as : List NpArr) :
    ∀ start, (mkHandles start as).length = as.length := by
  induction as with
  | nil => intro start; rfl
  | cons a rest ih => intro start; simp [mkHandles, ih]

/-- The `i`-th handle of `mkHandles` has the `i`-th fresh id and the shape
normalized from the `i`-th template array. -/
theorem mkHandles_get (as : List NpArr) :
    ∀ start i (hi : i < (mkHandles start as).length) (hj : i < as.length),
      (mkHandles start as).get ⟨i, hi⟩
        = Val.mx (start + i) (normShape (as.get ⟨i, hj⟩).dims).1
            (normShape (as.get ⟨i, hj⟩).dims).2 := by
  induction as with
  | nil => intro start i hi hj; simp at hj
  | cons a rest ih =>
    intro start i hi hj
    cases i with
    | zero => simp [mkHandles]
    | succ k =>
      have hk : k < (mkHandles (start + 1) rest).length := by
        simpa [mkHandles] using hi
      have hk' : k < rest.length := by simpa using hj
      simpa [mkHandles, Nat.add_assoc, Nat.add_comm 1 k] using ih (start + 1) k hk hk'

/-- One `_generate_opti_object` call on a rank-1 or rank-2 array: a fresh
handle of the normalized shape comes back and the id counter advances by
one. -/
theorem generateOptiObject_step (s : OptiSolver) (tag : StorageTag)
    (name : String) (a : NpArr)
    (htag : tag = StorageTag.storageVariable ∨ tag = StorageTag.storageParameter)
    (hd : a.dims.length = 1 ∨ a.dims.length = 2) :
    ∃ s', generateOptiObject s tag name (.arr a)
        = .ok (s', .mx s.solver.nextId (normShape a.dims).1 (normShape a.dims).2) ∧
      s'.solver.nextId = s.solver.nextId + 1 := by
  obtain ⟨dims, data⟩ := a
  rcases dims with _ | ⟨n, _ | ⟨c, _ | rest⟩⟩
  · simp at hd
  · rcases htag with h | h <;> subst h <;> exact ⟨_, rfl, rfl⟩
  · rcases htag with h | h <;> subst h <;> exact ⟨_, rfl, rfl⟩
  · simp at hd

/-- The storage-list loop over a list of rank-1/rank-2 numeric arrays:
element-wise handle creation, in order, ids counting up from the current
counter. -/
theorem generateStorageList_spec (as : List NpArr) :
    ∀ (s : OptiSolver) (tag : StorageTag) (name : String),
      (tag = StorageTag.storageVariable ∨ tag = StorageTag.storageParameter) →
      (∀ a ∈ as, a.dims.length = 1 ∨ a.dims.length = 2) →
      ∃ s', generateStorageList s tag name (as.map Val.arr)
          = .ok (s', mkHandles s.solver.nextId as) ∧
        s'.solver.nextId = s.solver.nextId + as.length := by
  induction as with
  | nil => intro s tag name _ _; exact ⟨s, rfl, rfl⟩
  | cons a rest ih =>
    intro s tag name htag hd
    obtain ⟨s₁, hstep, hnext₁⟩ :=
      generateOptiObject_step s tag name a htag (hd a (List.mem_cons_self _ _))
    obtain ⟨s₂, hrest, hnext₂⟩ :=
      ih s₁ tag name htag (fun b hb => hd b (List.mem_cons_of_mem _ hb))
    refine ⟨s₂, ?_, by simp only [List.length_cons]; omega⟩
    simp only [List.map_cons, generateStorageList, hstep, hrest, mkHandles, hnext₁]

/-- C10: a STORAGE-tagged field whose template value is a list of rank-1 or
rank-2 numeric arrays is accepted by generation rather than rejected: the
field value is replaced by a list of fresh symbolic handles — one per array,
in order, with consecutive new ids — each of the shape normalized
(1-D-to-column) from the corresponding array, and the resulting structure
becomes the live structure. -/
theorem generate_storage_list_field (s : OptiSolver) (name : String)
    (tag : StorageTag) (as : List NpArr)
    (htag : tag = StorageTag.storageVariable ∨ tag = StorageTag.storageParameter)
    (hne : as ≠ [])
    (hdims : ∀ a ∈ as, a.dims.length = 1 ∨ a.dims.length = 2) :
    ∃ s', generateObjectsFromInstance s [(name, some tag, .vlist (as.map Val.arr))]
        = .ok (s', .obj [(name, some tag, .vlist (mkHandles s.solver.nextId as))]) ∧
      s'.solver.nextId = s.solver.nextId + as.length ∧
      s'.vars = some (.obj [(name, some tag, .vlist (mkHandles s.solver.nextId as))]) ∧
      (mkHandles s.solver.nextId as).length = as.length ∧
      (∀ i (hi : i < (mkHandles s.solver.nextId as).length) (hj : i < as.length),
        (mkHandles s.solver.nextId as).get ⟨i, hi⟩
          = Val.mx (s.solver.nextId + i) (normShape (as.get ⟨i, hj⟩).dims).1
              (normShape (as.get ⟨i, hj⟩).dims).2) := by
  have hcomp : isCompositeValue (.vlist (as.map Val.arr)) = false := by
    cases as with
    | nil => exact absurd rfl hne
    | cons a rest => simp [isCompositeValue]
  obtain ⟨s', hgsl, hnext⟩ := generateStorageList_spec as s tag name htag hdims
  refine ⟨{ s' with vars := some (.obj [(name, some tag, .vlist (mkHandles s.solver.nextId as))]) },
    ?_, by simpa using hnext, rfl, mkHandles_length as s.solver.nextId,
    mkHandles_get as s.solver.nextId⟩
  simp only [generateObjectsFromInstance, generateFields, generateField, hcomp,
    Bool.false_eq_true, if_false, hgsl]

/-- C10 witness: a variable-tagged field holding the list of a 1-D length-2
array and a 2-D 2-by-3 array; generation yields handles `(2, 1)` and
`(2, 3)` with ids 0 and 1. -/
theorem generate_storage_list_field_witness :
    (StorageTag.storageVariable = StorageTag.storageVariable ∨
     StorageTag.storageVariable = StorageTag.storageParameter) ∧
    ([(⟨[2], [0, 0]⟩ : NpArr), ⟨[2, 3], [1, 2, 3, 4, 5, 6]⟩] ≠ []) ∧
    (∀ a ∈ [(⟨[2], [0, 0]⟩ : NpArr), ⟨[2, 3], [1, 2, 3, 4, 5, 6]⟩],
        a.dims.length = 1 ∨ a.dims.length = 2) ∧
    ∃ s', generateObjectsFromInstance OptiSolver.fresh
        [(("v"), some StorageTag.storageVariable,
          .vlist ([(⟨[2], [0, 0]⟩ : NpArr), ⟨[2, 3], [1, 2, 3, 4, 5, 6]⟩].map Val.arr))]
        = .ok (s', .obj [(("v"), some StorageTag.storageVariable,
            .vlist (mkHandles OptiSolver.fresh.solver.nextId
              [⟨[2], [0, 0]⟩, ⟨[2, 3], [1, 2, 3, 4, 5, 6]⟩]))]) ∧
      s'.solver.nextId = OptiSolver.fresh.solver.nextId + 2 := by
  have hd : ∀ a ∈ [(⟨[2], [0, 0]⟩ : NpArr), ⟨[2, 3], [1, 2, 3, 4, 5, 6]⟩],
      a.dims.length = 1 ∨ a.dims.length = 2 := by
    intro a ha
    simp only [List.mem_cons, List.not_mem_nil, or_false] at ha
    rcases ha with rfl | rfl
    · exact Or.inl rfl
    · exact Or.inr rfl
  obtain ⟨s', h1, h2, -⟩ := generate_storage_list_field OptiSolver.fresh ("v")
    .storageVariable [⟨[2], [0, 0]⟩, ⟨[2, 3], [1, 2, 3, 4, 5, 6]⟩]
    (Or.inl rfl) (by simp) hd
  exact ⟨Or.inl rfl, by simp, hd, s', h1, by simpa using h2⟩

namespace HeapModel

/-- Heap `h'` extends heap `h` on the first `N` addresses: every object that
existed there still exists there, unchanged. -/
def Preserves (N : Nat) (h h' : Heap) : Prop :=
  N ≤ h'.length ∧ ∀ i, i < N → h'[i]? = h[i]?

theorem Preserves.rfl {N : Nat} {h : Heap} (hN : N ≤ h.length) :
    Preserves N h h :=
  ⟨hN, fun _ _ => Eq.refl _⟩

theorem Preserves.comp {N : Nat} {h h₁ h₂ : Heap}
    (p : Preserves N h h₁) (q : Preserves N h₁ h₂) : Preserves N h h₂ :=
  ⟨q.1, fun i hi => (q.2 i hi).trans (p.2 i hi)⟩

theorem Preserves.weaken {N M : Nat} {h h' : Heap} (hMN : M ≤ N)
    (p : Preserves N h h') : Preserves M h h' :=
  ⟨le_trans hMN p.1, fun i hi => p.2 i (lt_of_lt_of_le hi hMN)⟩

theorem preserves_append {N : Nat} {h : Heap} (ext : Heap) (hN : N ≤ h.length) :
    Preserves N h (h ++ ext) := by
  refine ⟨by simp; omega, fun i hi => ?_⟩
  exact List.getElem?_append_left (lt_of_lt_of_le hi hN)

theorem setattrH_length (h : Heap) (addr : Nat) (name : String) (v : HVal) :
    (setattrH h addr name v).length = h.length := by
  unfold setattrH
  cases h[addr]? <;> simp

theorem preserves_setattr {N : Nat} {h : Heap} {addr : Nat} (name : String)
    (v : HVal) (hN : N ≤ h.length) (haddr : N ≤ addr) :
    Preserves N h (setattrH h addr name v) := by
  refine ⟨by rw [setattrH_length]; exact hN, fun i hi => ?_⟩
  unfold setattrH
  cases h[addr]? with
  | none => rfl
  | some fields => exact List.getElem?_set_ne (by omega)

/-- `copy.deepcopy` only allocates: the heap it returns is the input heap
with fresh objects appended. -/
theorem deepcopy_extend (fuel : Nat) :
    (∀ h v, ∃ ext, (deepcopyV fuel h v).1 = h ++ ext) ∧
    (∀ h fields, ∃ ext, (deepcopyFields fuel h fields).1 = h ++ ext) ∧
    (∀ h vs, ∃ ext, (deepcopyList fuel h vs).1 = h ++ ext) := by
  induction fuel with
  | zero =>
    exact ⟨fun h v => ⟨[], by simp [deepcopyV]⟩,
           fun h fields => ⟨[], by simp [deepcopyFields]⟩,
           fun h vs => ⟨[], by simp [deepcopyList]⟩⟩
  | succ fuel ih =>
    refine ⟨?_, ?_, ?_⟩
    · intro h v
      cases v with
      | ref addr =>
        rcases hga : h[addr]? with _ | fields
        · exact ⟨[], by simp [deepcopyV, hga]⟩
        · obtain ⟨ext, hext⟩ := ih.2.1 h fields
          rcases hdf : deepcopyFields fuel h fields with ⟨h₁, o⟩
          have hext' : h₁ = h ++ ext := by rw [hdf] at hext; exact hext
          cases o with
          | none => exact ⟨ext, by simp [deepcopyV, hga, hdf, hext']⟩
          | some fields' =>
            exact ⟨ext ++ [fields'], by simp [deepcopyV, hga, hdf, hext']⟩
      | hlist vs =>
        obtain ⟨ext, hext⟩ := ih.2.2 h vs
        rcases hdl : deepcopyList fuel h vs with ⟨h₁, o⟩
        have hext' : h₁ = h ++ ext := by rw [hdl] at hext; exact hext
        cases o with
        | none => exact ⟨ext, by simp [deepcopyV, hdl, hext']⟩
        | some vs' => exact ⟨ext, by simp [deepcopyV, hdl, hext']⟩
      | hnone => exact ⟨[], by simp [deepcopyV]⟩
      | plain n => exact ⟨[], by simp [deepcopyV]⟩
      | arr a => exact ⟨[], by simp [deepcopyV]⟩
      | mx id r c => exact ⟨[], by simp [deepcopyV]⟩
    · intro h fields
      cases fields with
      | nil => exact ⟨[], by simp [deepcopyFields]⟩
      | cons f rest =>
        obtain ⟨name, meta, v⟩ := f
        obtain ⟨ext₁, hext₁⟩ := ih.1 h v
        rcases hdv : deepcopyV fuel h v with ⟨h₁, o⟩
        have hext₁' : h₁ = h ++ ext₁ := by rw [hdv] at hext₁; exact hext₁
        cases o with
        | none => exact ⟨ext₁, by simp [deepcopyFields, hdv, hext₁']⟩
        | some v' =>
          obtain ⟨ext₂, hext₂⟩ := ih.2.1 h₁ rest
          rcases hdf : deepcopyFields fuel h₁ rest with ⟨h₂, o₂⟩
          have hx : h₂ = h₁ ++ ext₂ := by rw [hdf] at hext₂; exact hext₂
          have hext₂' : h₂ = h ++ (ext₁ ++ ext₂) := by
            rw [hx, hext₁', List.append_assoc]
          cases o₂ with
          | none => exact ⟨ext₁ ++ ext₂, by simp [deepcopyFields, hdv, hdf, hext₂']⟩
          | some rest' =>
            exact ⟨ext₁ ++ ext₂, by simp [deepcopyFields, hdv, hdf, hext₂']⟩
    · intro h vs
      cases vs with
      | nil => exact ⟨[], by simp [deepcopyList]⟩
      | cons v rest =>
        obtain ⟨ext₁, hext₁⟩ := ih.1 h v
        rcases hdv : deepcopyV fuel h v with ⟨h₁, o⟩
        have hext₁' : h₁ = h ++ ext₁ := by rw [hdv] at hext₁; exact hext₁
        cases o with
        | none => exact ⟨ext₁, by simp [deepcopyList, hdv, hext₁']⟩
        | some v' =>
          obtain ⟨ext₂, hext₂⟩ := ih.2.2 h₁ rest
          rcases hdl : deepcopyList fuel h₁ rest with ⟨h₂, o₂⟩
          have hx : h₂ = h₁ ++ ext₂ := by rw [hdl] at hext₂; exact hext₂
          have hext₂' : h₂ = h ++ (ext₁ ++ ext₂) := by
            rw [hx, hext₁', List.append_assoc]
          cases o₂ with
          | none => exact ⟨ext₁ ++ ext₂, by simp [deepcopyList, hdv, hdl, hext₂']⟩
          | some rest' =>
            exact ⟨ext₁ ++ ext₂, by simp [deepcopyList, hdv, hdl, hext₂']⟩

/-- A successful `deepcopy` of an object reference returns a reference to a
fresh address, beyond the input heap. -/
theorem deepcopyV_ref (fuel : Nat) (h : Heap) (addr : Nat) (h' : Heap) (w : HVal)
    (hdc : deepcopyV fuel h (.ref addr) = (h', some w)) :
    ∃ c, w = .ref c ∧ h.length ≤ c := by
  cases fuel with
  | zero => simp [deepcopyV] at hdc
  | succ fuel =>
    rcases hga : h[addr]? with _ | fields
    · have heval : deepcopyV (fuel + 1) h (.ref addr) = (h, none) := by
        simp [deepcopyV, hga]
      rw [heval] at hdc; simp at hdc
    · obtain ⟨ext, hext⟩ := (deepcopy_extend fuel).2.1 h fields
      rcases hdf : deepcopyFields fuel h fields with ⟨h₁, o⟩
      have hext' : h₁ = h ++ ext := by rw [hdf] at hext; exact hext
      cases o with
      | none =>
        have heval : deepcopyV (fuel + 1) h (.ref addr) = (h₁, none) := by
          simp [deepcopyV, hga, hdf]
        rw [heval] at hdc; simp at hdc
      | some fields' =>
        have heval : deepcopyV (fuel + 1) h (.ref addr)
            = (h₁ ++ [fields'], some (.ref h₁.length)) := by
          simp [deepcopyV, hga, hdf]
        rw [heval] at hdc
        simp only [Prod.mk.injEq, Option.some.injEq] at hdc
        exact ⟨h₁.length, hdc.2.symm, by rw [hext']; simp⟩

end HeapModel

namespace HeapModel

/-- Frame property of the heap-level generation functions: every heap
address that existed on entry still holds the same object afterwards — all
writes go to addresses the deep copies allocated. For the field loop the
bound `N` delimits the protected prefix, below both the entry heap and the
copy being mutated. -/
theorem hGenFrame (fuel : Nat) :
    (∀ st h v, Preserves h.length h (hGenOpt fuel st h v).1) ∧
    (∀ st h addr, Preserves h.length h (hGenInstance fuel st h addr).1) ∧
    (∀ st h caddr ds N, N ≤ h.length → N ≤ caddr →
        Preserves N h (hGenLoop fuel st h caddr ds).1) ∧
    (∀ st h vs, Preserves h.length h (hGenFromList fuel st h vs).1) ∧
    (∀ st h vs, Preserves h.length h (hGenListLoop fuel st h vs).1) := by
  induction fuel with
  | zero =>
    refine ⟨fun st h v => ?_, fun st h addr => ?_,
      fun st h caddr ds N hN hc => ?_, fun st h vs => ?_, fun st h vs => ?_⟩
    · exact Preserves.rfl le_rfl
    · exact Preserves.rfl le_rfl
    · exact Preserves.rfl hN
    · exact Preserves.rfl le_rfl
    · exact Preserves.rfl le_rfl
  | succ fuel ih =>
    obtain ⟨ihOpt, ihInst, ihLoop, ihFrom, ihList⟩ := ih
    refine ⟨?_, ?_, ?_, ?_, ?_⟩
    · intro st h v
      cases v with
      | ref addr => simpa only [hGenOpt] using ihInst st h addr
      | hlist vs => simpa only [hGenOpt] using ihFrom st h vs
      | hnone => simp only [hGenOpt]; exact Preserves.rfl le_rfl
      | plain n => simp only [hGenOpt]; exact Preserves.rfl le_rfl
      | arr a => simp only [hGenOpt]; exact Preserves.rfl le_rfl
      | mx id r c => simp only [hGenOpt]; exact Preserves.rfl le_rfl
    · intro st h addr
      rcases hdc : deepcopyV fuel h (.ref addr) with ⟨h₁, o⟩
      obtain ⟨ext, hext⟩ := (deepcopy_extend fuel).1 h (.ref addr)
      have hext' : h₁ = h ++ ext := by rw [hdc] at hext; exact hext
      have hpre1 : Preserves h.length h h₁ := by
        rw [hext']; exact preserves_append ext le_rfl
      cases o with
      | none =>
        have heval : hGenInstance (fuel + 1) st h addr = (h₁, none) := by
          simp [hGenInstance, hdc]
        rw [heval]; exact hpre1
      | some w =>
        obtain ⟨caddr, hw, hcaddr⟩ := deepcopyV_ref fuel h addr h₁ w hdc
        subst hw
        rcases hga : h₁[caddr]? with _ | fields
        · have heval : hGenInstance (fuel + 1) st h addr = (h₁, none) := by
            simp [hGenInstance, hdc, hga]
          rw [heval]; exact hpre1
        · rcases hloop : hGenLoop fuel st h₁ caddr (fields.map fun f => (f.1, f.2.1))
            with ⟨h₂, o₂⟩
          have hp2 : Preserves h.length h₁ h₂ := by
            have hx := ihLoop st h₁ caddr (fields.map fun f => (f.1, f.2.1)) h.length
              (by rw [hext']; simp) hcaddr
            rw [hloop] at hx; exact hx
          have hcomb : Preserves h.length h h₂ := hpre1.comp hp2
          cases o₂ with
          | none =>
            have heval : hGenInstance (fuel + 1) st h addr = (h₂, none) := by
              simp [hGenInstance, hdc, hga, hloop]
            rw [heval]; exact hcomb
          | some st₂ =>
            have heval : hGenInstance (fuel + 1) st h addr
                = (h₂, some ({ st₂ with vars := some (.ref caddr) }, .ref caddr)) := by
              simp [hGenInstance, hdc, hga, hloop]
            rw [heval]; exact hcomb
    · intro st h caddr ds N hN hc
      induction ds generalizing st h with
      | nil =>
        have heval : hGenLoop (fuel + 1) st h caddr [] = (h, some st) := by
          simp [hGenLoop]
        rw [heval]; exact Preserves.rfl hN
      | cons d rest ihRest =>
        obtain ⟨name, meta⟩ := d
        rcases hget : getattrH h caddr name with _ | value
        · have heval : hGenLoop (fuel + 1) st h caddr ((name, meta) :: rest) = (h, none) := by
            simp [hGenLoop, hget]
          rw [heval]; exact Preserves.rfl hN
        · by_cases hcomp : isCompositeH value = true
          · rcases hgo : hGenOpt fuel st h value with ⟨h₁, o⟩
            have hp1 : Preserves N h h₁ := by
              have hx := ihOpt st h value; rw [hgo] at hx; exact hx.weaken hN
            cases o with
            | none =>
              have heval : hGenLoop (fuel + 1) st h caddr ((name, meta) :: rest)
                  = (h₁, none) := by
                simp [hGenLoop, hget, hcomp, hgo]
              rw [heval]; exact hp1
            | some p =>
              obtain ⟨st₁, out⟩ := p
              have hps : Preserves N h₁ (setattrH h₁ caddr name out) :=
                preserves_setattr name out hp1.1 hc
              rcases hrec : hGenLoop fuel st₁ (setattrH h₁ caddr name out) caddr rest
                with ⟨h₂, o₂⟩
              have hp2 : Preserves N (setattrH h₁ caddr name out) h₂ := by
                have hx := ihLoop st₁ (setattrH h₁ caddr name out) caddr rest N
                  (by rw [setattrH_length]; exact hp1.1) hc
                rw [hrec] at hx; exact hx
              have heval : hGenLoop (fuel + 1) st h caddr ((name, meta) :: rest)
                  = (h₂, o₂) := by
                simp [hGenLoop, hget, hcomp, hgo, hrec]
              rw [heval]; exact (hp1.comp hps).comp hp2
          · have hrecStep : ∀ (st₁ : HState) (out : HVal),
                Preserves N h (hGenLoop fuel st₁ (setattrH h caddr name out) caddr rest).1 := by
              intro st₁ out
              have hps : Preserves N h (setattrH h caddr name out) :=
                preserves_setattr name out hN hc
              have hx := ihLoop st₁ (setattrH h caddr name out) caddr rest N
                (by rw [setattrH_length]; exact hN) hc
              exact hps.comp hx
            cases meta with
            | none =>
              have heval : hGenLoop (fuel + 1) st h caddr ((name, none) :: rest)
                  = hGenLoop fuel st h caddr rest := by
                simp [hGenLoop, hget, hcomp]
              rw [heval]; exact ihLoop st h caddr rest N hN hc
            | some tag =>
              cases value with
              | hlist vs =>
                rcases hsl : hGenStorageList st tag vs with _ | p
                · have heval : hGenLoop (fuel + 1) st h caddr ((name, some tag) :: rest)
                      = (h, none) := by
                    simp [hGenLoop, hget, hcomp, hsl]
                  rw [heval]; exact Preserves.rfl hN
                · obtain ⟨st₁, outs⟩ := p
                  rcases hrec : hGenLoop fuel st₁ (setattrH h caddr name (.hlist outs)) caddr rest
                    with ⟨h₂, o₂⟩
                  have heval : hGenLoop (fuel + 1) st h caddr ((name, some tag) :: rest)
                      = (h₂, o₂) := by
                    simp [hGenLoop, hget, hcomp, hsl, hrec]
                  rw [heval]
                  have hx := hrecStep st₁ (.hlist outs); rw [hrec] at hx; exact hx
              | hnone =>
                have heval : hGenLoop (fuel + 1) st h caddr ((name, some tag) :: rest)
                    = (h, none) := by
                  simp [hGenLoop, hget, hcomp, hGenerateOptiObject]
                rw [heval]; exact Preserves.rfl hN
              | plain n =>
                rcases hgoo : hGenerateOptiObject st tag (.plain n) with _ | p
                · have heval : hGenLoop (fuel + 1) st h caddr ((name, some tag) :: rest)
                      = (h, none) := by
                    simp [hGenLoop, hget, hcomp, hgoo]
                  rw [heval]; exact Preserves.rfl hN
                · obtain ⟨st₁, out⟩ := p
                  rcases hrec : hGenLoop fuel st₁ (setattrH h caddr name out) caddr rest
                    with ⟨h₂, o₂⟩
                  have heval : hGenLoop (fuel + 1) st h caddr ((name, some tag) :: rest)
                      = (h₂, o₂) := by
                    simp [hGenLoop, hget, hcomp, hgoo, hrec]
                  rw [heval]
                  have hx := hrecStep st₁ out; rw [hrec] at hx; exact hx
              | arr a =>
                rcases hgoo : hGenerateOptiObject st tag (.arr a) with _ | p
                · have heval : hGenLoop (fuel + 1) st h caddr ((name, some tag) :: rest)
                      = (h, none) := by
                    simp [hGenLoop, hget, hcomp, hgoo]
                  rw [heval]; exact Preserves.rfl hN
                · obtain ⟨st₁, out⟩ := p
                  rcases hrec : hGenLoop fuel st₁ (setattrH h caddr name out) caddr rest
                    with ⟨h₂, o₂⟩
                  have heval : hGenLoop (fuel + 1) st h caddr ((name, some tag) :: rest)
                      = (h₂, o₂) := by
                    simp [hGenLoop, hget, hcomp, hgoo, hrec]
                  rw [heval]
                  have hx := hrecStep st₁ out; rw [hrec] at hx; exact hx
              | mx id r c =>
                rcases hgoo : hGenerateOptiObject st tag (.mx id r c) with _ | p
                · have heval : hGenLoop (fuel + 1) st h caddr ((name, some tag) :: rest)
                      = (h, none) := by
                    simp [hGenLoop, hget, hcomp, hgoo]
                  rw [heval]; exact Preserves.rfl hN
                · obtain ⟨st₁, out⟩ := p
                  rcases hrec : hGenLoop fuel st₁ (setattrH h caddr name out) caddr rest
                    with ⟨h₂, o₂⟩
                  have heval : hGenLoop (fuel + 1) st h caddr ((name, some tag) :: rest)
                      = (h₂, o₂) := by
                    simp [hGenLoop, hget, hcomp, hgoo, hrec]
                  rw [heval]
                  have hx := hrecStep st₁ out; rw [hrec] at hx; exact hx
              | ref a =>
                rcases hgoo : hGenerateOptiObject st tag (.ref a) with _ | p
                · have heval : hGenLoop (fuel + 1) st h caddr ((name, some tag) :: rest)
                      = (h, none) := by
                    simp [hGenLoop, hget, hcomp, hgoo]
                  rw [heval]; exact Preserves.rfl hN
                · obtain ⟨st₁, out⟩ := p
                  rcases hrec : hGenLoop fuel st₁ (setattrH h caddr name out) caddr rest
                    with ⟨h₂, o₂⟩
                  have heval : hGenLoop (fuel + 1) st h caddr ((name, some tag) :: rest)
                      = (h₂, o₂) := by
                    simp [hGenLoop, hget, hcomp, hgoo, hrec]
                  rw [heval]
                  have hx := hrecStep st₁ out; rw [hrec] at hx; exact hx
    · intro st h vs
      obtain ⟨ext, hext⟩ := (deepcopy_extend fuel).2.2 h vs
      rcases hdl : deepcopyList fuel h vs with ⟨h₁, o⟩
      have hext' : h₁ = h ++ ext := by rw [hdl] at hext; exact hext
      have hpre1 : Preserves h.length h h₁ := by
        rw [hext']; exact preserves_append ext le_rfl
      cases o with
      | none =>
        have heval : hGenFromList (fuel + 1) st h vs = (h₁, none) := by
          simp [hGenFromList, hdl]
        rw [heval]; exact hpre1
      | some vs' =>
        rcases hll : hGenListLoop fuel st h₁ vs' with ⟨h₂, o₂⟩
        have hp2 : Preserves h.length h₁ h₂ := by
          have hx := (ihList st h₁ vs').weaken (show h.length ≤ h₁.length by rw [hext']; simp)
          rw [hll] at hx; exact hx
        have hcomb := hpre1.comp hp2
        cases o₂ with
        | none =>
          have heval : hGenFromList (fuel + 1) st h vs = (h₂, none) := by
            simp [hGenFromList, hdl, hll]
          rw [heval]; exact hcomb
        | some p =>
          obtain ⟨st₂, outs⟩ := p
          have heval : hGenFromList (fuel + 1) st h vs
              = (h₂, some ({ st₂ with vars := some (.hlist outs) }, .hlist outs)) := by
            simp [hGenFromList, hdl, hll]
          rw [heval]; exact hcomb
    · intro st h vs
      cases vs with
      | nil =>
        have heval : hGenListLoop (fuel + 1) st h [] = (h, some (st, [])) := by
          simp [hGenListLoop]
        rw [heval]; exact Preserves.rfl le_rfl
      | cons v rest =>
        rcases hgo : hGenOpt fuel st h v with ⟨h₁, o⟩
        have hp1 : Preserves h.length h h₁ := by
          have hx := ihOpt st h v; rw [hgo] at hx; exact hx
        cases o with
        | none =>
          have heval : hGenListLoop (fuel + 1) st h (v :: rest) = (h₁, none) := by
            simp [hGenListLoop, hgo]
          rw [heval]; exact hp1
        | some p =>
          obtain ⟨st₁, v'⟩ := p
          rcases hrest : hGenListLoop fuel st₁ h₁ rest with ⟨h₂, o₂⟩
          have hp2 : Preserves h.length h₁ h₂ := by
            have hx := (ihList st₁ h₁ rest).weaken hp1.1
            rw [hrest] at hx; exact hx
          have hcomb := hp1.comp hp2
          cases o₂ with
          | none =>
            have heval : hGenListLoop (fuel + 1) st h (v :: rest) = (h₂, none) := by
              simp [hGenListLoop, hgo, hrest]
            rw [heval]; exact hcomb
          | some q =>
            obtain ⟨st₂, rest'⟩ := q
            have heval : hGenListLoop (fuel + 1) st h (v :: rest)
                = (h₂, some (st₂, v' :: rest')) := by
              simp [hGenListLoop, hgo, hrest]
            rw [heval]; exact hcomb

end HeapModel

/-- C7: `generate_optimization_objects` never mutates the caller's template
in place — in the heap-level embedding, where Python object identity is
explicit, every object present in the heap before the call (in particular
the template structure, or list of structures, and everything reachable
from it) is unchanged afterwards, whether generation succeeds, raises, or
exhausts its fuel: the deep copies are allocated at fresh addresses and all
writes target them. -/
theorem generate_never_mutates_template (fuel : Nat) (st : HeapModel.HState)
    (h : HeapModel.Heap) (v : HeapModel.HVal) :
    ∀ i, i < h.length → ((HeapModel.hGenOpt fuel st h v).1)[i]? = h[i]? :=
  fun i hi => ((HeapModel.hGenFrame fuel).1 st h v).2 i hi

/-- C7 witness: generating from a one-object template heap (a single
variable-tagged field) leaves the template object at address 0 untouched —
while the generation itself succeeds, mutating only the fresh copy. -/
theorem generate_never_mutates_template_witness :
    ((0 : Nat) <
      ([[(("x"), some StorageTag.storageVariable, HeapModel.HVal.arr ⟨[2], [7, 8]⟩)]] :
        HeapModel.Heap).length) ∧
    ((HeapModel.hGenOpt 5 ⟨0, none⟩
        [[(("x"), some StorageTag.storageVariable, HeapModel.HVal.arr ⟨[2], [7, 8]⟩)]]
        (.ref 0)).1)[0]?
      = ([[(("x"), some StorageTag.storageVariable, HeapModel.HVal.arr ⟨[2], [7, 8]⟩)]] :
          HeapModel.Heap)[0]? :=
  ⟨by decide,
   generate_never_mutates_template 5 ⟨0, none⟩
     [[(("x"), some StorageTag.storageVariable, HeapModel.HVal.arr ⟨[2], [7, 8]⟩)]]
     (.ref 0) 0 (by decide)⟩
